import Mathlib

/-!
Vehicle tracking service: repository, filter and consumer.

A shallow embedding of `internal/repositories/vehicle_repo.go`,
`internal/services/vehicle_service.go`, `internal/handler/v1_vehicle_handler.go`
and the per-delivery body of `App.Consume` in `internal/app/app.go`.

Conventions of the embedding

* A Go method with a pointer receiver that mutates in place and returns `error`
  becomes a function returning the mutated value together with `Option Err`
  (`none` is Go's `nil` error).
* The MongoDB collection is a list of documents in natural (insertion) order.
  The driver calls the repository makes (`InsertOne`, `UpdateByID`, `FindOne`,
  `Find`) are functions on that list, each returning the collection afterwards.
* Go `int` is a 64-bit two's complement integer; it is an `Int` here and the
  one arithmetic expression of the repository, `(Page - 1) * PageSize`, wraps
  through `wrapInt64`.
* `float64` mileage values are rationals: the code only stores, compares and
  reads them back. NaN and the infinities are outside the embedding.
* Wall-clock time and the driver-generated object id are inputs of the
  operation that reads them.
* The JSON codec, the validator and the broker are inputs of the handlers,
  except where the source fixes what they do: the `required` tags of
  `VehicleRequest`, and the `json` tags of `VehicleFilter` that the codec
  matches the keys of the query against.
* A handler returns the list of its writes on the response writer; the status
  code the client sees is the one of the first write.
-/

namespace VehicleSvc

/-! ## Errors -/

/-- The error values the embedded code can return. -/
inductive Err where
  /-- `primitive.ObjectIDFromHex` rejected the string. -/
  | invalidHex
  /-- `VehicleStatus.Valid` rejected the status. -/
  | invalidStatus
  /-- The store rejected an insert: duplicate `_id` or duplicate `license_number`. -/
  | duplicateKey
  /-- `mongo.ErrNoDocuments` of `FindOne(...).Decode`. -/
  | noDocuments
  /-- The error `fmt.Errorf("vehicle not found")` of `TrackingVehicle`. -/
  | vehicleNotFound
  /-- The server rejected a regular expression of the query. -/
  | invalidRegex
  /-- The server rejected a negative `skip`. -/
  | negativeSkip
  /-- A `*strconv.NumError` of `strconv.Atoi` or `strconv.ParseFloat`. -/
  | numError
  /-- The codec could not decode a JSON value into the type of the field its key names. -/
  | unmarshalType
  /-- The codec could not decode a request body. -/
  | unmarshalBody
  /-- The codec could not encode a value. -/
  | marshal
  /-- The validator rejected a struct: a field with the tag `required` has its zero value. -/
  | validation
  /-- The broker rejected a publish. -/
  | publish
  /-- The handler error `ErrMethodNotAllowed`. -/
  | methodNotAllowed
  /-- The handler error `ErrNotFound`. -/
  | notFound
  /-- The handler error `ErrInvalidRequest`. -/
  | invalidRequest
deriving DecidableEq, Repr

deriving instance DecidableEq for Except

/-! ## Object ids (`primitive.ObjectID`) -/

/-- The type `primitive.ObjectID`: an array of twelve bytes. -/
structure ObjectID where
  bytes : List (Fin 256)
  size : bytes.length = 12
deriving DecidableEq

/-- The zero value `primitive.NilObjectID`. -/
def NilObjectID : ObjectID := ⟨List.replicate 12 0, rfl⟩

/-- The method `ObjectID.IsZero`. -/
def ObjectID.IsZero (o : ObjectID) : Bool := decide (o = NilObjectID)

/-- One digit of `encoding/hex`: `0-9`, `a-f`, `A-F`. -/
def fromHexChar (c : Char) : Option (Fin 16) :=
  if c = '0' then some 0 else if c = '1' then some 1 else if c = '2' then some 2
  else if c = '3' then some 3 else if c = '4' then some 4 else if c = '5' then some 5
  else if c = '6' then some 6 else if c = '7' then some 7 else if c = '8' then some 8
  else if c = '9' then some 9
  else if c = 'a' ∨ c = 'A' then some 10 else if c = 'b' ∨ c = 'B' then some 11
  else if c = 'c' ∨ c = 'C' then some 12 else if c = 'd' ∨ c = 'D' then some 13
  else if c = 'e' ∨ c = 'E' then some 14 else if c = 'f' ∨ c = 'F' then some 15
  else none

/-- The lower-case digit table `0123456789abcdef` of `encoding/hex`. -/
def hexDigit (d : Fin 16) : Char :=
  match d.val with
  | 0 => '0' | 1 => '1' | 2 => '2' | 3 => '3' | 4 => '4' | 5 => '5' | 6 => '6' | 7 => '7'
  | 8 => '8' | 9 => '9' | 10 => 'a' | 11 => 'b' | 12 => 'c' | 13 => 'd' | 14 => 'e' | _ => 'f'

/-- The byte `hi << 4 | lo` built from two hex digits. -/
def byteOfDigits (hi lo : Fin 16) : Fin 256 := ⟨hi.val * 16 + lo.val, by omega⟩

/-- The function `hex.Decode`: two digits per byte, an error on an odd length or a
character that is no hex digit. -/
def hexDecode : List Char → Option (List (Fin 256))
  | [] => some []
  | [_] => none
  | c₁ :: c₂ :: rest =>
    match fromHexChar c₁, fromHexChar c₂, hexDecode rest with
    | some hi, some lo, some bs => some (byteOfDigits hi lo :: bs)
    | _, _, _ => none

/-- The function `hex.Encode`: two lower-case digits per byte. -/
def hexEncode : List (Fin 256) → List Char
  | [] => []
  | b :: rest =>
    hexDigit ⟨b.val / 16, by omega⟩ :: hexDigit ⟨b.val % 16, by omega⟩ :: hexEncode rest

/-- The function `primitive.ObjectIDFromHex`: the string must have length 24 and decode
as hex. Go measures the length in bytes; a string whose characters are all hex digits
has as many bytes as characters, and any other string is rejected by `hex.Decode`, so
measuring in characters accepts the same strings. Both failures are `Err.invalidHex`. -/
def ObjectIDFromHex (s : String) : Except Err ObjectID :=
  if s.data.length ≠ 24 then .error .invalidHex
  else
    match hexDecode s.data with
    | none => .error .invalidHex
    | some bs => if h : bs.length = 12 then .ok ⟨bs, h⟩ else .error .invalidHex

/-- The method `ObjectID.Hex`. -/
def ObjectID.Hex (o : ObjectID) : String := String.mk (hexEncode o.bytes)

/-! ## The models package: statuses, vehicles, tracking requests -/

/-- The type `models.VehicleStatus`, a Go string type. -/
abbrev VehicleStatus := String

/-- Modelled from the spec: the method `VehicleStatus.Valid` of the models package, which is
not part of this repository. The spec's data model gives the enumeration `active`,
`inactive`, `repair`, `sold`, `rented` and says that any other value is invalid. -/
def VehicleStatus.Valid (s : VehicleStatus) : Option Err :=
  if s = "active" ∨ s = "inactive" ∨ s = "repair" ∨ s = "sold" ∨ s = "rented" then none
  else some .invalidStatus

/-- The struct `models.Vehicle` with the fields the repository reads and the store
persists (`_id`, `vehicle_name`, `vehicle_model`, `license_number`, `vehicle_status`,
`mileage`, `created_at`, `updated_at`). Timestamps are natural numbers. -/
structure Vehicle where
  ID : ObjectID
  VehicleName : String
  VehicleModel : String
  LicenseNumber : String
  VehicleStatus : VehicleStatus
  Mileage : ℚ
  CreatedAt : ℕ
  UpdatedAt : ℕ
deriving DecidableEq

/-- Modelled from the spec: the method `Vehicle.Build` of the models package. The spec
lists `invalid status` among the errors of `CreateVehicle` and says that creation
initializes `created_at` and `updated_at` to the current wall-clock time. -/
def Vehicle.Build (v : Vehicle) (now : ℕ) : Vehicle × Option Err :=
  match VehicleStatus.Valid v.VehicleStatus with
  | some e => (v, some e)
  | none => ({ v with CreatedAt := now, UpdatedAt := now }, none)

/-- Modelled from the spec: the method `Vehicle.Check` of the models package. The spec
gives `FindVehicleByID` the post-condition that the vehicle passes the status validity
check and the error `invalid persisted status`. -/
def Vehicle.Check (v : Vehicle) : Option Err := VehicleStatus.Valid v.VehicleStatus

/-- The struct `models.TrackingDataRequest`, with the three fields `App.Consume` reads. -/
structure TrackingDataRequest where
  VehicleID : String
  Mileage : ℚ
  Status : VehicleStatus
deriving DecidableEq

/-! ## The document store -/

/-- The collection `vehicles`: its documents in natural order. -/
abbrev Collection := List Vehicle

/-- The driver call `collection.InsertOne` on a collection with the unique index on
`license_number` that `NewMongoVehicleRepository` creates. The spec has the id of a new
vehicle assigned by the store: a document whose `_id` is the zero id is sent without one
and gets the id `gen` the driver generates. The insert is refused with a duplicate-key
error when the `_id` or the `license_number` is already present; otherwise the document
is appended. Returns the collection afterwards and the inserted id or the error. -/
def InsertOne (c : Collection) (doc : Vehicle) (gen : ObjectID) :
    Collection × Except Err ObjectID :=
  let id := if doc.ID.IsZero then gen else doc.ID
  if c.any (fun d => decide (d.ID = id)) then (c, .error .duplicateKey)
  else if c.any (fun d => decide (d.LicenseNumber = doc.LicenseNumber)) then
    (c, .error .duplicateKey)
  else (c ++ [{ doc with ID := id }], .ok id)

/-- The struct `mongo.UpdateResult`, with the two fields `TrackingVehicle` reads. -/
structure UpdateResult where
  MatchedCount : ℕ
  UpsertedID : Option ObjectID
deriving DecidableEq

/-- The update document of `TrackingVehicle` applied to one document: `$set` of
`mileage` and `vehicle_status`, `$currentDate` of `updated_at`. -/
def applyTrackingUpdate (d : Vehicle) (mileAge : ℚ) (status : VehicleStatus) (now : ℕ) :
    Vehicle :=
  { d with Mileage := mileAge, VehicleStatus := status, UpdatedAt := now }

/-- The documents after an update of the first one whose `_id` is `id`. -/
def updateFirst (id : ObjectID) (mileAge : ℚ) (status : VehicleStatus) (now : ℕ) :
    Collection → Collection
  | [] => []
  | d :: rest =>
    if d.ID = id then applyTrackingUpdate d mileAge status now :: rest
    else d :: updateFirst id mileAge status now rest

/-- The driver call `collection.UpdateByID` with the update document of
`TrackingVehicle` and no upsert option: the first document with that `_id` is updated,
`MatchedCount` is 1 if there is one and 0 otherwise, `UpsertedID` is nil. -/
def UpdateByID (c : Collection) (id : ObjectID) (mileAge : ℚ) (status : VehicleStatus)
    (now : ℕ) : Collection × Except Err UpdateResult :=
  if c.any (fun d => decide (d.ID = id)) then
    (updateFirst id mileAge status now c, .ok { MatchedCount := 1, UpsertedID := none })
  else (c, .ok { MatchedCount := 0, UpsertedID := none })

/-- The driver call `collection.FindOne` with the filter `_id = id`, decoded into a
vehicle: the first document with that `_id`, `mongo.ErrNoDocuments` if there is none. -/
def FindOne (c : Collection) (id : ObjectID) : Except Err Vehicle :=
  match c.find? (fun d => decide (d.ID = id)) with
  | some d => .ok d
  | none => .error .noDocuments

/-! ## `MongoVehicleRepository`: create, track, find by id -/

/-- The method `MongoVehicleRepository.CreateVehicle`. Returns the vehicle behind the
pointer after the call, the collection after the call, and the error. -/
def MongoVehicleRepository.CreateVehicle (c : Collection) (vehicle : Vehicle) (now : ℕ)
    (gen : ObjectID) : Vehicle × Collection × Option Err :=
  match vehicle.Build now with
  | (vehicle, some err) => (vehicle, c, some err)
  | (vehicle, none) =>
    match InsertOne c vehicle gen with
    | (c, .error err) => (vehicle, c, some err)
    | (c, .ok insertedID) => ({ vehicle with ID := insertedID }, c, none)

/-- The method `MongoVehicleRepository.TrackingVehicle`. Returns the collection after
the call and the error. -/
def MongoVehicleRepository.TrackingVehicle (c : Collection) (id : String) (mileAge : ℚ)
    (status : VehicleStatus) (now : ℕ) : Collection × Option Err :=
  match ObjectIDFromHex id with
  | .error err => (c, some err)
  | .ok objectID =>
    match UpdateByID c objectID mileAge status now with
    | (c, .error err) => (c, some err)
    | (c, .ok updateResult) =>
      if updateResult.MatchedCount = 0 then (c, some .vehicleNotFound)
      else
        match updateResult.UpsertedID with
        | some upserted =>
          if upserted ≠ objectID then (c, some .vehicleNotFound) else (c, none)
        | none => (c, none)

/-- The method `MongoVehicleRepository.FindVehicleByID`; the vehicle behind the out
pointer is returned on success. -/
def MongoVehicleRepository.FindVehicleByID (c : Collection) (id : String) :
    Except Err Vehicle :=
  match ObjectIDFromHex id with
  | .error err => .error err
  | .ok objID =>
    match FindOne c objID with
    | .error err => .error err
    | .ok vehicle =>
      match vehicle.Check with
      | some err => .error err
      | none => .ok vehicle

/-! ## `MongoVehicleService` -/

/-- The method `MongoVehicleService.TrackingVehicle`: delegation to the repository. -/
def MongoVehicleService.TrackingVehicle (c : Collection) (id : String) (mileAge : ℚ)
    (status : VehicleStatus) (now : ℕ) : Collection × Option Err :=
  MongoVehicleRepository.TrackingVehicle c id mileAge status now

/-! ## The consumer (`App.Consume`) -/

/-- An acknowledgment call on a delivery: `msg.Ack(multiple)` or
`msg.Nack(multiple, requeue)`. -/
inductive AckAction where
  | Ack (multiple : Bool)
  | Nack (multiple requeue : Bool)
deriving DecidableEq, Repr

/-- What handling one delivery did: the acknowledgment calls in order, the calls of
`VehicleService.TrackingVehicle` in order, and the collection afterwards. -/
structure Handled where
  acks : List AckAction
  calls : List (String × ℚ × VehicleStatus)
  store : Collection

/-- The body of the per-message goroutine of `App.Consume`. `unmarshal` is
`json.Unmarshal` into a `models.TrackingDataRequest` (`none` is a decode error); `now`
is the store's clock at the update. -/
def consumeDelivery (unmarshal : String → Option TrackingDataRequest) (now : ℕ)
    (c : Collection) (body : String) : Handled :=
  match unmarshal body with
  | none => { acks := [.Nack false false], calls := [], store := c }
  | some trackingData =>
    match MongoVehicleService.TrackingVehicle c trackingData.VehicleID trackingData.Mileage
        trackingData.Status now with
    | (c, some _) =>
      { acks := [.Nack false false],
        calls := [(trackingData.VehicleID, trackingData.Mileage, trackingData.Status)],
        store := c }
    | (c, none) =>
      { acks := [.Ack false],
        calls := [(trackingData.VehicleID, trackingData.Mileage, trackingData.Status)],
        store := c }

/-! ## `VehicleFilter` -/

/-- The struct `VehicleFilter`. `Page` and `PageSize` are Go `int`s; `id` is the
unexported field that `Build` fills. -/
structure VehicleFilter where
  Page : ℤ
  PageSize : ℤ
  SortField : String
  SortOrder : String
  ID : String
  VehicleName : String
  VehicleModel : String
  LicenseNumber : String
  VehicleStatus : VehicleStatus
  Mileage : ℚ
  id : ObjectID
deriving DecidableEq

/-- The method `VehicleFilter.ObjectID`. -/
def VehicleFilter.ObjectID (v : VehicleFilter) : ObjectID := v.id

/-- The method `VehicleFilter.Build`: the filter after the call (the defaults and the
clamp are written before the checks, so they stay when an error is returned) and the
error. -/
def VehicleFilter.Build (v : VehicleFilter) : VehicleFilter × Option Err :=
  let v := if v.Page = 0 then { v with Page := 1 } else v
  let v := if v.PageSize = 0 then { v with PageSize := 10 } else v
  let v := if v.PageSize > 100 then { v with PageSize := 100 } else v
  let v := if v.SortField = "" then { v with SortField := "created_at" } else v
  let v := if v.SortOrder = "" then { v with SortOrder := "asc" } else v
  match (if v.VehicleStatus ≠ "" then VehicleStatus.Valid v.VehicleStatus else none) with
  | some err => (v, some err)
  | none =>
    if v.ID ≠ "" then
      match ObjectIDFromHex v.ID with
      | .error err => (v, some err)
      | .ok objectID => ({ v with id := objectID }, none)
    else (v, none)

/-! ## Queries on the document store -/

/-- A `$regex` predicate with its `$options`. -/
structure RegexQuery where
  pattern : String
  options : String
deriving DecidableEq

/-- The query document `bsonMFilter` of `FindVehicles`: one optional entry per key the
method can set. A regex entry is a `$regex` predicate, `mileage` is a `$gte` predicate,
`_id` and `vehicle_status` are equalities. -/
structure BsonFilter where
  _id : Option ObjectID
  vehicle_name : Option RegexQuery
  vehicle_model : Option RegexQuery
  vehicle_status : Option VehicleStatus
  mileage : Option ℚ
  license_number : Option RegexQuery
deriving DecidableEq

/-- The options `options.Find()` with the three settings `FindVehicles` makes: the sort
key with its order value, the skip and the limit, as `int64`. -/
structure FindOptions where
  sort : Option (String × ℤ)
  skip : Option ℤ
  limit : Option ℤ
deriving DecidableEq

/-- The store's regular expression engine: a pattern and its options compile to a
matcher on strings, or are rejected. It is an input of every query. -/
abbrev RegexEngine := String → String → Option (String → Bool)

/-- A BSON value of a vehicle document, or null for a key the document lacks. -/
inductive BsonValue where
  | null
  | double (x : ℚ)
  | string (s : String)
  | objectID (o : ObjectID)
  | dateTime (t : ℕ)
deriving DecidableEq

/-- The value a vehicle document holds under a key. -/
def Vehicle.field (d : Vehicle) (key : String) : BsonValue :=
  if key = "_id" then .objectID d.ID
  else if key = "vehicle_name" then .string d.VehicleName
  else if key = "vehicle_model" then .string d.VehicleModel
  else if key = "license_number" then .string d.LicenseNumber
  else if key = "vehicle_status" then .string d.VehicleStatus
  else if key = "mileage" then .double d.Mileage
  else if key = "created_at" then .dateTime d.CreatedAt
  else if key = "updated_at" then .dateTime d.UpdatedAt
  else .null

/-- The place of a value's type in the BSON comparison order: null, numbers, strings,
object ids, dates. -/
def BsonValue.rank : BsonValue → ℕ
  | .null => 0
  | .double _ => 1
  | .string _ => 2
  | .objectID _ => 3
  | .dateTime _ => 4

/-- The BSON comparison order: by type first, and within a type by value (strings and
object ids lexicographically). -/
def BsonValue.le : BsonValue → BsonValue → Prop
  | .double x, .double y => x ≤ y
  | .string s, .string t => s ≤ t
  | .objectID a, .objectID b => a.bytes ≤ b.bytes
  | .dateTime a, .dateTime b => a ≤ b
  | a, b => a.rank ≤ b.rank

instance BsonValue.decLe : DecidableRel BsonValue.le := fun a b => by
  cases a <;> cases b <;> simp only [BsonValue.le] <;> infer_instance

/-- The order a sort specification `(key, order)` puts on documents: descending by the
key's value for a negative order value, ascending otherwise. -/
def sortLE (key : String) (order : ℤ) (a b : Vehicle) : Prop :=
  if order < 0 then (b.field key).le (a.field key) else (a.field key).le (b.field key)

instance sortLE.dec (key : String) (order : ℤ) : DecidableRel (sortLE key order) :=
  fun a b => by unfold sortLE; infer_instance

/-- The matcher of an optional regex entry; `none` when the engine rejects the pattern. -/
def compileRegex (re : RegexEngine) : Option RegexQuery → Option (String → Bool)
  | none => some (fun _ => true)
  | some q => re q.pattern q.options

/-- The predicate a query document puts on documents: the conjunction of its entries.
`none` when the engine rejects one of its patterns. -/
def BsonFilter.compile (re : RegexEngine) (f : BsonFilter) : Option (Vehicle → Bool) :=
  match compileRegex re f.vehicle_name, compileRegex re f.vehicle_model,
      compileRegex re f.license_number with
  | some name, some model, some license =>
    some (fun d =>
      (match f._id with
        | some id => decide (d.ID = id)
        | none => true) &&
      name d.VehicleName && model d.VehicleModel &&
      (match f.vehicle_status with
        | some s => decide (d.VehicleStatus = s)
        | none => true) &&
      (match f.mileage with
        | some m => decide (m ≤ d.Mileage)
        | none => true) &&
      license d.LicenseNumber)
  | _, _, _ => none

/-- The documents after the sort stage of a query. -/
def sortStage (sort : Option (String × ℤ)) (docs : List Vehicle) : List Vehicle :=
  match sort with
  | none => docs
  | some (key, order) => docs.insertionSort (sortLE key order)

/-- The documents after the limit stage: no limit for 0, and the driver sends the
absolute value of a negative limit. -/
def limitStage (limit : Option ℤ) (docs : List Vehicle) : List Vehicle :=
  match limit with
  | none => docs
  | some n => if n = 0 then docs else docs.take n.natAbs

/-- The driver call `collection.Find` with the cursor read to its end: the matching
documents, sorted, without the first `skip` of them, cut at the limit. A pattern the
engine rejects and a negative skip are errors of the call. -/
def Find (re : RegexEngine) (c : Collection) (filter : BsonFilter) (opts : FindOptions) :
    Except Err (List Vehicle) :=
  match filter.compile re with
  | none => .error .invalidRegex
  | some pred =>
    let skip := opts.skip.getD 0
    if skip < 0 then .error .negativeSkip
    else .ok (limitStage opts.limit ((sortStage opts.sort (c.filter pred)).drop skip.toNat))

/-! ## `MongoVehicleRepository.FindVehicles` -/

/-- A Go `int` or `int64` result: the value of `x` in 64-bit two's complement. -/
def wrapInt64 (x : ℤ) : ℤ := (x + 2 ^ 63) % 2 ^ 64 - 2 ^ 63

/-- The query document `FindVehicles` fills from a built filter (`fmt.Sprintf("^%s", x)`
is `"^" ++ x`). -/
def findVehiclesFilter (filter : VehicleFilter) : BsonFilter :=
  { _id := if filter.ID ≠ "" then some filter.ObjectID else none
    vehicle_name :=
      if filter.VehicleName ≠ "" then some ⟨"^" ++ filter.VehicleName, "i"⟩ else none
    vehicle_model :=
      if filter.VehicleModel ≠ "" then some ⟨"^" ++ filter.VehicleModel, "i"⟩ else none
    vehicle_status := if filter.VehicleStatus ≠ "" then some filter.VehicleStatus else none
    mileage := if filter.Mileage ≠ 0 then some filter.Mileage else none
    license_number :=
      if filter.LicenseNumber ≠ "" then some ⟨"^" ++ filter.LicenseNumber, "i"⟩ else none }

/-- The find options `FindVehicles` sets from a built filter. -/
def findVehiclesOptions (filter : VehicleFilter) : FindOptions :=
  { sort :=
      if filter.SortField ≠ "" then
        some (filter.SortField, if filter.SortOrder = "desc" then -1 else 1)
      else none
    skip := some (wrapInt64 (wrapInt64 (filter.Page - 1) * filter.PageSize))
    limit := some filter.PageSize }

/-- The method `MongoVehicleRepository.FindVehicles`; `none` is the nil filter. -/
def MongoVehicleRepository.FindVehicles (re : RegexEngine) (c : Collection)
    (filter : Option VehicleFilter) : Except Err (List Vehicle) :=
  match filter with
  | none => Find re c ⟨none, none, none, none, none, none⟩ ⟨none, none, none⟩
  | some filter =>
    match filter.Build with
    | (_, some err) => .error err
    | (filter, none) => Find re c (findVehiclesFilter filter) (findVehiclesOptions filter)

/-- The filter `f` asked for page `k` with page size `n`. -/
def VehicleFilter.atPage (f : VehicleFilter) (k n : ℤ) : VehicleFilter :=
  { f with Page := k, PageSize := n }

/-! ## Sequences of calls -/

/-- A state-changing call on the repository, with the inputs it reads. -/
inductive Call where
  | create (vehicle : Vehicle) (now : ℕ) (gen : ObjectID)
  | track (id : String) (mileAge : ℚ) (status : VehicleStatus) (now : ℕ)

/-- The collection after one call. -/
def Call.run (c : Collection) : Call → Collection
  | .create vehicle now gen => (MongoVehicleRepository.CreateVehicle c vehicle now gen).2.1
  | .track id mileAge status now =>
    (MongoVehicleRepository.TrackingVehicle c id mileAge status now).1

/-- The collection after a sequence of calls. -/
def runCalls (c : Collection) (calls : List Call) : Collection := calls.foldl Call.run c

/-! ## `MongoVehicleService`: create, find, get, publish -/

/-- The struct `services.VehicleRequest`. -/
structure VehicleRequest where
  VehicleName : String
  VehicleModel : String
  VehicleStatus : VehicleStatus
  Mileage : ℚ
  LicenseNumber : String
deriving DecidableEq

/-- The method `VehicleRequest.Validate`. -/
def VehicleRequest.Validate (v : VehicleRequest) : Option Err :=
  match VehicleStatus.Valid v.VehicleStatus with
  | some err => some err
  | none => none

/-- The call `validate.Struct(&req)` on a `VehicleRequest`. Each of the five fields carries
the tag `validate:"required"`, which the validator fails when the field has the zero value
of its type: the empty string for the four string fields, 0 for `Mileage`. -/
def VehicleRequest.validateStruct (req : VehicleRequest) : Option Err :=
  if req.VehicleName = "" ∨ req.VehicleModel = "" ∨ req.VehicleStatus = "" ∨
      req.Mileage = 0 ∨ req.LicenseNumber = "" then some .validation
  else none

/-- Modelled from the spec: the constructor `models.NewVehicle` of the models package. The
spec has the service construct a new vehicle whose id the store assigns: every field is
at its zero value. -/
def NewVehicle : Vehicle :=
  { ID := NilObjectID, VehicleName := "", VehicleModel := "", LicenseNumber := "",
    VehicleStatus := "", Mileage := 0, CreatedAt := 0, UpdatedAt := 0 }

/-- The method `MongoVehicleService.CreateVehicle`: the collection afterwards and the
created vehicle or the error. The setters of the models package set one field each. -/
def MongoVehicleService.CreateVehicle (c : Collection) (req : VehicleRequest) (now : ℕ)
    (gen : ObjectID) : Collection × Except Err Vehicle :=
  match req.Validate with
  | some err => (c, .error err)
  | none =>
    let vehicle :=
      { NewVehicle with
        VehicleName := req.VehicleName, VehicleModel := req.VehicleModel,
        VehicleStatus := req.VehicleStatus, Mileage := req.Mileage,
        LicenseNumber := req.LicenseNumber }
    match MongoVehicleRepository.CreateVehicle c vehicle now gen with
    | (_, c, some err) => (c, .error err)
    | (vehicle, c, none) => (c, .ok vehicle)

/-- The method `MongoVehicleService.GetVehicleByID`. -/
def MongoVehicleService.GetVehicleByID (c : Collection) (id : String) : Except Err Vehicle :=
  match MongoVehicleRepository.FindVehicleByID c id with
  | .error err => .error err
  | .ok vehicle => .ok vehicle

/-- The digits of a decimal numeral as a number; `none` for no digits or a character that
is no digit. -/
def parseDigits (cs : List Char) : Option ℕ :=
  if cs = [] ∨ ¬ (cs.all Char.isDigit = true) then none
  else some (cs.foldl (fun n ch => 10 * n + (ch.toNat - '0'.toNat)) 0)

/-- The function `strconv.Atoi`: an optional sign and decimal digits, with a value in the
range of a 64-bit `int`. -/
def Atoi (s : String) : Except Err ℤ :=
  match s.data with
  | '-' :: digits =>
    match parseDigits digits with
    | none => .error .numError
    | some n => if n ≤ 2 ^ 63 then .ok (-(n : ℤ)) else .error .numError
  | '+' :: digits =>
    match parseDigits digits with
    | none => .error .numError
    | some n => if n < 2 ^ 63 then .ok (n : ℤ) else .error .numError
  | digits =>
    match parseDigits digits with
    | none => .error .numError
    | some n => if n < 2 ^ 63 then .ok (n : ℤ) else .error .numError

/-- The decimal float parser of a query: `strconv.ParseFloat(s, 64)`, with an error as well
for the values NaN and infinity, which `json.Marshal` rejects before the filter is
decoded. It is an input of the service, as floating point is outside the embedding. -/
abbrev FloatParser := String → Except Err ℚ

/-- The type `url.Values` as the HTTP server parses it: every key has at least one value,
and `FindVehicles` reads the first only. The list holds each key with its first value. -/
abbrev Values := List (String × String)

/-- A value of the map `data` of `FindVehicles`: an `int`, a `float64` or a `string`. -/
inductive AnyValue where
  | int (n : ℤ)
  | float (x : ℚ)
  | string (s : String)
deriving DecidableEq

/-- The map assignment `data[key] = v`. -/
def setData (data : List (String × AnyValue)) (key : String) (v : AnyValue) :
    List (String × AnyValue) :=
  data.filter (fun e => decide (e.1 ≠ key)) ++ [(key, v)]

/-- The loop of `FindVehicles` over the query: `page` and `limit` are converted with
`strconv.Atoi`, `mileage` with `strconv.ParseFloat`, every other key keeps its string. -/
def queryData (parseFloat : FloatParser) :
    Values → List (String × AnyValue) → Except Err (List (String × AnyValue))
  | [], data => .ok data
  | (key, value0) :: rest, data =>
    if key = "page" ∨ key = "limit" then
      match Atoi value0 with
      | .error err => .error err
      | .ok converted => queryData parseFloat rest (setData data key (.int converted))
    else if key = "mileage" then
      match parseFloat value0 with
      | .error err => .error err
      | .ok converted => queryData parseFloat rest (setData data key (.float converted))
    else queryData parseFloat rest (setData data key (.string value0))

/-- The order of the keys of a map in the output of `json.Marshal`: by their bytes. -/
def keyLE (a b : String × AnyValue) : Prop :=
  a.1.data.map Char.toNat ≤ b.1.data.map Char.toNat

instance keyLE.dec : DecidableRel keyLE := fun a b => by unfold keyLE; infer_instance

/-- The zero value of `VehicleFilter`. -/
def zeroFilter : VehicleFilter :=
  { Page := 0, PageSize := 0, SortField := "", SortOrder := "", ID := "", VehicleName := "",
    VehicleModel := "", LicenseNumber := "", VehicleStatus := "", Mileage := 0,
    id := NilObjectID }

/-- The key of a JSON member as the codec compares it with the `json` tags of a struct:
with the letters `A` to `Z` in lower case. The codec is a drop-in replacement of
`encoding/json`, which matches a key to a field by its tag, preferring an exact match
and accepting a case-insensitive one; the tags of `VehicleFilter` are all in lower
case. -/
def foldKey (key : String) : String := String.mk (key.data.map Char.toLower)

/-- One member of a JSON object decoded into a `VehicleFilter`: a key that matches the tag
of a field sets the field, and fails when the value does not have the field's type; any
other key is skipped. -/
def VehicleFilter.setMember (f : VehicleFilter) (key : String) (v : AnyValue) :
    Except Err VehicleFilter :=
  if foldKey key = "page" then
    match v with
    | .int n => .ok { f with Page := n }
    | _ => .error .unmarshalType
  else if foldKey key = "limit" then
    match v with
    | .int n => .ok { f with PageSize := n }
    | _ => .error .unmarshalType
  else if foldKey key = "sort_by" then
    match v with
    | .string s => .ok { f with SortField := s }
    | _ => .error .unmarshalType
  else if foldKey key = "sort_order" then
    match v with
    | .string s => .ok { f with SortOrder := s }
    | _ => .error .unmarshalType
  else if foldKey key = "_id" then
    match v with
    | .string s => .ok { f with ID := s }
    | _ => .error .unmarshalType
  else if foldKey key = "vehicle_name" then
    match v with
    | .string s => .ok { f with VehicleName := s }
    | _ => .error .unmarshalType
  else if foldKey key = "vehicle_model" then
    match v with
    | .string s => .ok { f with VehicleModel := s }
    | _ => .error .unmarshalType
  else if foldKey key = "license_number" then
    match v with
    | .string s => .ok { f with LicenseNumber := s }
    | _ => .error .unmarshalType
  else if foldKey key = "vehicle_status" then
    match v with
    | .string s => .ok { f with VehicleStatus := s }
    | _ => .error .unmarshalType
  else if foldKey key = "mileage" then
    match v with
    | .int n => .ok { f with Mileage := n }
    | .float x => .ok { f with Mileage := x }
    | .string _ => .error .unmarshalType
  else .ok f

/-- The members of a JSON object decoded into a filter, in their order. -/
def unmarshalMembers : List (String × AnyValue) → VehicleFilter → Except Err VehicleFilter
  | [], f => .ok f
  | (key, v) :: rest, f =>
    match f.setMember key v with
    | .error err => .error err
    | .ok f => unmarshalMembers rest f

/-- The pair `json.Marshal(data)` and `json.Unmarshal(buf, &filter)` of `FindVehicles`:
the members of `data` in the order of their keys, decoded into the zero filter. -/
def unmarshalFilter (data : List (String × AnyValue)) : Except Err VehicleFilter :=
  unmarshalMembers (data.insertionSort keyLE) zeroFilter

/-- The typed filter `MongoVehicleService.FindVehicles` derives from a query. -/
def MongoVehicleService.queryFilter (parseFloat : FloatParser) (query : Values) :
    Except Err VehicleFilter :=
  match queryData parseFloat query [] with
  | .error err => .error err
  | .ok data => unmarshalFilter data

/-- The method `MongoVehicleService.FindVehicles`. -/
def MongoVehicleService.FindVehicles (re : RegexEngine) (parseFloat : FloatParser)
    (c : Collection) (query : Values) : Except Err (List Vehicle) :=
  match MongoVehicleService.queryFilter parseFloat query with
  | .error err => .error err
  | .ok filter => MongoVehicleRepository.FindVehicles re c (some filter)

/-- The method `MongoVehicleService.PublishTrackingData`: the error, and the messages
handed to the broker. `validate` is the method `TrackingDataRequest.Validate` of the
models package, `marshal` is `json.Marshal`, `publish` is the tracking repository. -/
def MongoVehicleService.PublishTrackingData (validate : TrackingDataRequest → Option Err)
    (marshal : TrackingDataRequest → Except Err String) (publish : String → Option Err)
    (req : TrackingDataRequest) : Option Err × List String :=
  match validate req with
  | some err => (some err, [])
  | none =>
    match marshal req with
    | .error err => (some err, [])
    | .ok buf => (publish buf, [buf])

/-! ## The HTTP handlers (`V1TrackingHandler`) -/

/-- The parts of an `*http.Request` the handlers read: the method, the URL path, the parsed
query, and the value the body middleware left in the request context under `common.Body`
(`none` when there is none, or it is no byte slice). -/
structure Request where
  Method : String
  Path : String
  Query : Values
  Body : Option String

/-- The `data` member of a success envelope. -/
inductive ResponseData where
  | null
  | vehicle (v : Vehicle)
  | vehicles (vs : List Vehicle)
deriving DecidableEq

/-- Modelled from the spec: the writes of a handler through the helpers of the common
package, which is not part of this repository. The spec has the adapter choose the status
code and write a uniform envelope `success, message, data, error`. `error` is
`common.HandleError(status, w, err)`, and the pair of `w.WriteHeader(status)` and the
encoding of `common.DefaultErrorResponse(err)` in `FindVehicleByID`; `success` is the
encoding of `common.DefaultSuccessResponse(data, message)` with no status written first;
`notFound` is `http.NotFound`. -/
inductive Write where
  | error (status : ℕ) (err : Err)
  | notFound
  | success (data : ResponseData) (message : String)
deriving DecidableEq

/-- The status code the client receives: the one of the first write, 200 for a body
written with no status before it. -/
def statusCode : List Write → ℕ
  | [] => 200
  | .error status _ :: _ => status
  | .notFound :: _ => 404
  | .success _ _ :: _ => 200

/-- The function `strings.Split` on the characters of a string, for a separator of one
character. -/
def splitChars (sep : Char) : List Char → List (List Char)
  | [] => [[]]
  | ch :: rest =>
    if ch = sep then [] :: splitChars sep rest
    else
      match splitChars sep rest with
      | [] => [[ch]]
      | segment :: segments => (ch :: segment) :: segments

/-- The function `strings.Split` for a separator of one character. -/
def Split (s : String) (sep : Char) : List String :=
  (splitChars sep s.data).map String.mk

/-- The method `V1TrackingHandler.methodWasNotAllowed`. -/
def V1TrackingHandler.methodWasNotAllowed : List Write := [.error 405 .methodNotAllowed]

/-- The method `V1TrackingHandler.CreateVehicle`: the collection afterwards and the
writes. `unmarshal` is `json.Unmarshal` into a `services.VehicleRequest` (`none` is a
decode error). -/
def V1TrackingHandler.CreateVehicle (unmarshal : String → Option VehicleRequest)
    (c : Collection) (r : Request) (now : ℕ) (gen : ObjectID) : Collection × List Write :=
  let decoded : Except Err VehicleRequest :=
    match r.Body with
    | some body =>
      match unmarshal body with
      | none => .error .unmarshalBody
      | some req => .ok req
    | none => .ok ⟨"", "", "", 0, ""⟩
  match decoded with
  | .error err => (c, [.error 422 err])
  | .ok req =>
    match req.validateStruct with
    | some err => (c, [.error 422 err])
    | none =>
      match MongoVehicleService.CreateVehicle c req now gen with
      | (c, .error err) => (c, [.error 422 err])
      | (c, .ok vehicle) => (c, [.success (.vehicle vehicle) "successfully created vehicle"])

/-- The method `V1TrackingHandler.FindVehicles`. -/
def V1TrackingHandler.FindVehicles (re : RegexEngine) (parseFloat : FloatParser)
    (c : Collection) (r : Request) : List Write :=
  match MongoVehicleService.FindVehicles re parseFloat c r.Query with
  | .error err => [.error 400 err]
  | .ok vehicles =>
    if vehicles.length = 0 then [.error 404 .notFound]
    else [.success (.vehicles vehicles) "successfully fetched vehicles"]

/-- The method `V1TrackingHandler.HandleCreateAndFindVehicle`. -/
def V1TrackingHandler.HandleCreateAndFindVehicle (re : RegexEngine) (parseFloat : FloatParser)
    (unmarshal : String → Option VehicleRequest) (c : Collection) (r : Request) (now : ℕ)
    (gen : ObjectID) : Collection × List Write :=
  if r.Method ≠ "GET" ∧ r.Method ≠ "POST" then (c, V1TrackingHandler.methodWasNotAllowed)
  else if r.Method = "POST" then V1TrackingHandler.CreateVehicle unmarshal c r now gen
  else (c, V1TrackingHandler.FindVehicles re parseFloat c r)

/-- The method `V1TrackingHandler.FindVehicleByID`: the writes, and the ids the service's
`GetVehicleByID` was called with. -/
def V1TrackingHandler.FindVehicleByID (c : Collection) (r : Request) :
    List Write × List String :=
  if r.Method ≠ "GET" then (V1TrackingHandler.methodWasNotAllowed, [])
  else
    let segments := Split r.Path '/'
    if segments.length < 5 then ([.notFound], [])
    else
      match MongoVehicleService.GetVehicleByID c (segments.getD 4 "") with
      | .error err => ([.error 404 err], [segments.getD 4 ""])
      | .ok vehicle =>
        ([.success (.vehicle vehicle)
            ("successfully fetched vehicle with ID: " ++ segments.getD 4 "")],
          [segments.getD 4 ""])

/-- The method `V1TrackingHandler.PublishTrackingData`: the writes in order, the requests
the service's `PublishTrackingData` was called with, and the messages handed to the
broker. `unmarshal` is `json.Unmarshal` into a `models.TrackingDataRequest`,
`validateStruct` is `validate.Struct` on it (its tags are in the models package), and
the other three are the inputs of the service method. -/
def V1TrackingHandler.PublishTrackingData (unmarshal : String → Option TrackingDataRequest)
    (validateStruct validate : TrackingDataRequest → Option Err)
    (marshal : TrackingDataRequest → Except Err String) (publish : String → Option Err)
    (r : Request) : List Write × List TrackingDataRequest × List String :=
  if r.Method ≠ "POST" then (V1TrackingHandler.methodWasNotAllowed, [], [])
  else
    let decoded : Except Err (TrackingDataRequest × List Write) :=
      match r.Body with
      | some body =>
        match unmarshal body with
        | none => .error .unmarshalBody
        | some req => .ok (req, [])
      | none => .ok (⟨"", 0, ""⟩, [.error 400 .invalidRequest])
    match decoded with
    | .error err => ([.error 422 err], [], [])
    | .ok (req, written) =>
      match validateStruct req with
      | some err => (written ++ [.error 422 err], [], [])
      | none =>
        match MongoVehicleService.PublishTrackingData validate marshal publish req with
        | (some err, published) => (written ++ [.error 422 err], [req], published)
        | (none, published) =>
          (written ++ [.success .null "successfully published tracking data"], [req],
            published)

/-! ## Regular expressions -/

/-- The characters that can have a special meaning in a pattern: the backslash, `^`, `$`,
`.`, `[`, `]`, `|`, `(`, `)`, `?`, `*`, `+`, `{`, `}`. -/
def regexMeta : List Char :=
  [Char.ofNat 92, '^', '$', '.', '[', ']', '|', '(', ')', '?', '*', '+', Char.ofNat 123,
    Char.ofNat 125]

/-- One element of a pattern: the dot, which matches any character but the line feed, or
a character that stands for itself. -/
inductive RegexItem where
  | any
  | literal (ch : Char)
deriving DecidableEq

/-- The elements of a pattern made of dots and of characters without a special meaning;
`none` for a pattern with another special character. -/
def parseItems : List Char → Option (List RegexItem)
  | [] => some []
  | ch :: rest =>
    if ch = '.' then (parseItems rest).map (fun items => RegexItem.any :: items)
    else if ch ∈ regexMeta then none
    else (parseItems rest).map (fun items => RegexItem.literal ch :: items)

/-- Whether a string begins with a match of the elements; `fold` compares letters without
regard to case. -/
def matchItems (fold : Bool) : List RegexItem → List Char → Bool
  | [], _ => true
  | _ :: _, [] => false
  | .any :: items, ch :: rest => decide (ch ≠ Char.ofNat 10) && matchItems fold items rest
  | .literal l :: items, ch :: rest =>
    (if fold then decide (l.toLower = ch.toLower) else decide (l = ch)) &&
      matchItems fold items rest

/-- The regular expression engine of the store (PCRE) on the patterns `^` followed by dots
and characters without a special meaning: the pattern is anchored at the start of the
string, a dot matches any character but the line feed, any other character matches
itself, and with the option `i` letters match without regard to case. Every other pattern
is outside this fragment and is given as rejected; PCRE does reject `^(`, a group that is
not closed, which is the one such pattern the theorems use. -/
def pcreFragment : RegexEngine := fun pattern options =>
  match pattern.data with
  | '^' :: body =>
    (parseItems body).map (fun items s => matchItems (options.data.contains 'i') items s.data)
  | _ => none

/-- Whether `s` starts with `p` when both are compared without regard to the case of
letters. -/
def startsWithFold (p s : String) : Bool :=
  (p.data.map Char.toLower).isPrefixOf (s.data.map Char.toLower)

/-- The fields of a document other than `updated_at`. -/
def Vehicle.withoutUpdatedAt (d : Vehicle) : Vehicle := { d with UpdatedAt := 0 }

/-! ## Sample data -/

/-- The object id whose hex form is `010101010101010101010101`. -/
def sampleID : ObjectID := ⟨List.replicate 12 1, rfl⟩

/-- The object id whose hex form is `020202020202020202020202`. -/
def sampleID2 : ObjectID := ⟨List.replicate 12 2, rfl⟩

/-- The vehicle of the spec's first scenario, before creation. -/
def hino : Vehicle :=
  { ID := NilObjectID, VehicleName := "Hino", VehicleModel := "500", LicenseNumber := "AA-1",
    VehicleStatus := "active", Mileage := 0, CreatedAt := 0, UpdatedAt := 0 }

/-- A second vehicle, before creation. -/
def isuzu : Vehicle :=
  { ID := NilObjectID, VehicleName := "Isuzu", VehicleModel := "NPR", LicenseNumber := "BB-2",
    VehicleStatus := "repair", Mileage := 12, CreatedAt := 0, UpdatedAt := 0 }

/-- The store after creating `hino` in the empty store at time 1. -/
def hinoStore : Collection :=
  (MongoVehicleRepository.CreateVehicle [] hino 1 sampleID).2.1

/-- A regular expression engine that accepts every pattern and matches every string. -/
def anyRegex : RegexEngine := fun _ _ => some (fun _ => true)

/-- A filter with every field at its zero value except the page and the page size. -/
def pageFilter (page pageSize : ℤ) : VehicleFilter :=
  { Page := page, PageSize := pageSize, SortField := "", SortOrder := "", ID := "",
    VehicleName := "", VehicleModel := "", LicenseNumber := "", VehicleStatus := "",
    Mileage := 0, id := NilObjectID }

/-- A filter for the sold vehicles with the id `010101010101010101010101`. -/
def soldFilter : VehicleFilter :=
  { Page := 1, PageSize := 10, SortField := "", SortOrder := "",
    ID := "010101010101010101010101", VehicleName := "", VehicleModel := "",
    LicenseNumber := "", VehicleStatus := "sold", Mileage := 0, id := NilObjectID }

/-- A filter asking for the first page in descending order of the default sort field. -/
def descFilter : VehicleFilter :=
  { Page := 1, PageSize := 10, SortField := "", SortOrder := "desc", ID := "",
    VehicleName := "", VehicleModel := "", LicenseNumber := "", VehicleStatus := "",
    Mileage := 0, id := NilObjectID }

/-- A filter like `descFilter` with the sort order `DESC` in upper case. -/
def upperDescFilter : VehicleFilter :=
  { Page := 1, PageSize := 10, SortField := "", SortOrder := "DESC", ID := "",
    VehicleName := "", VehicleModel := "", LicenseNumber := "", VehicleStatus := "",
    Mileage := 0, id := NilObjectID }

/-- The store after creating `hino` and then `isuzu` in the empty store. -/
def twoStore : Collection :=
  runCalls [] [Call.create hino 1 sampleID, Call.create isuzu 2 sampleID2]

/-- The request of the spec's first scenario: a mileage of 0. -/
def hinoRequest : VehicleRequest :=
  { VehicleName := "Hino", VehicleModel := "500", VehicleStatus := "active", Mileage := 0,
    LicenseNumber := "AA-1" }

/-- A request like `hinoRequest` with a mileage of 15. -/
def usedHinoRequest : VehicleRequest :=
  { VehicleName := "Hino", VehicleModel := "500", VehicleStatus := "active", Mileage := 15,
    LicenseNumber := "AA-1" }

/-- A `POST` to `/api/v1/vehicles` with a body in the request context. -/
def postVehicle : Request :=
  { Method := "POST", Path := "/api/v1/vehicles", Query := [], Body := some "body" }

/-- A `POST` to `/api/v1/tracking` with no body in the request context. -/
def postTrackingNoBody : Request :=
  { Method := "POST", Path := "/api/v1/tracking", Query := [], Body := none }

/-- A `GET` of a path. -/
def getPath (path : String) : Request :=
  { Method := "GET", Path := path, Query := [], Body := none }

/-- A filter with every field at its zero value except the vehicle name. -/
def nameFilter (name : String) : VehicleFilter :=
  { Page := 0, PageSize := 0, SortField := "", SortOrder := "", ID := "", VehicleName := name,
    VehicleModel := "", LicenseNumber := "", VehicleStatus := "", Mileage := 0,
    id := NilObjectID }

/-- A vehicle whose name starts with an opening parenthesis. -/
def van : Vehicle :=
  { ID := NilObjectID, VehicleName := "(old) van", VehicleModel := "T2",
    LicenseNumber := "CC-3", VehicleStatus := "inactive", Mileage := 90, CreatedAt := 0,
    UpdatedAt := 0 }

/-- The store after creating `van` in the empty store. -/
def vanStore : Collection := runCalls [] [Call.create van 1 sampleID]

/-! ## Theorems -/

/-! ### Object ids -/

theorem fromHexChar_hexDigit (d : Fin 16) : fromHexChar (hexDigit d) = some d := by
  revert d; decide

theorem byteOfDigits_div_mod (b : Fin 256) :
    byteOfDigits ⟨b.val / 16, by omega⟩ ⟨b.val % 16, by omega⟩ = b := by
  apply Fin.ext
  simp only [byteOfDigits]
  omega

theorem hexDecode_hexEncode (bs : List (Fin 256)) : hexDecode (hexEncode bs) = some bs := by
  induction bs with
  | nil => rfl
  | cons b rest ih =>
    simp only [hexEncode, hexDecode, fromHexChar_hexDigit, ih, byteOfDigits_div_mod]

theorem hexEncode_length (bs : List (Fin 256)) : (hexEncode bs).length = 2 * bs.length := by
  induction bs with
  | nil => rfl
  | cons b rest ih => simp only [hexEncode, List.length_cons, ih]; omega

/-- Decoding the hex form of an object id gives the id back. -/
theorem ObjectIDFromHex_Hex (o : ObjectID) : ObjectIDFromHex o.Hex = .ok o := by
  obtain ⟨bs, hbs⟩ := o
  simp [ObjectIDFromHex, ObjectID.Hex, hexDecode_hexEncode, hexEncode_length, hbs]

/-- The value of `hex.Decode` on two more characters. -/
theorem hexDecode_cons_cons (c₁ c₂ : Char) (rest : List Char) :
    hexDecode (c₁ :: c₂ :: rest) =
      match fromHexChar c₁, fromHexChar c₂, hexDecode rest with
      | some hi, some lo, some bs => some (byteOfDigits hi lo :: bs)
      | _, _, _ => none := by
  rw [hexDecode]

/-- The function `hex.Decode` returns half as many bytes as it reads characters. -/
theorem hexDecode_length (cs : List Char) (bs : List (Fin 256)) (h : hexDecode cs = some bs) :
    2 * bs.length = cs.length := by
  induction cs using hexDecode.induct generalizing bs with
  | case1 =>
    simp only [hexDecode, Option.some.injEq] at h
    subst h
    rfl
  | case2 ch => simp [hexDecode] at h
  | case3 c₁ c₂ rest hi lo bs' h3 h2 h1 ih =>
    rw [hexDecode_cons_cons, h1, h2, h3] at h
    simp only [Option.some.injEq] at h
    subst h
    have := ih bs' h3
    simp only [List.length_cons]
    omega
  | case4 c₁ c₂ rest hnone ih =>
    rw [hexDecode_cons_cons] at h
    split at h
    · rename_i hi lo bs' h1 h2 h3
      exact absurd (hnone hi lo bs' h1 h2 h3) id
    · cases h

/-- The function `hex.Decode` succeeds exactly on an even number of hex digits. -/
theorem hexDecode_isSome_iff (cs : List Char) :
    (hexDecode cs).isSome = true ↔
      (cs.length % 2 = 0 ∧ ∀ ch ∈ cs, (fromHexChar ch).isSome = true) := by
  induction cs using hexDecode.induct with
  | case1 => simp [hexDecode]
  | case2 ch => simp [hexDecode]
  | case3 c₁ c₂ rest hi lo bs h3 h2 h1 ih =>
    rw [h3] at ih
    have hrest := ih.mp rfl
    rw [hexDecode_cons_cons, h1, h2, h3]
    simp only [Option.isSome_some, List.length_cons, List.mem_cons, true_iff]
    refine ⟨by omega, ?_⟩
    rintro ch (rfl | rfl | hch)
    · simp [h1]
    · simp [h2]
    · exact hrest.2 ch hch
  | case4 c₁ c₂ rest hnone ih =>
    have hdec : hexDecode (c₁ :: c₂ :: rest) = none := by
      rw [hexDecode_cons_cons]
      split
      · rename_i hi lo bs h1 h2 h3
        exact absurd (hnone hi lo bs h1 h2 h3) id
      · rfl
    rw [hdec]
    simp only [Option.isSome_none, Bool.false_eq_true, List.length_cons, List.mem_cons,
      false_iff, not_and]
    intro hlen hall
    have h1 := hall c₁ (Or.inl rfl)
    have h2 := hall c₂ (Or.inr (Or.inl rfl))
    have h3 := ih.mpr ⟨by omega, fun ch hch => hall ch (Or.inr (Or.inr hch))⟩
    obtain ⟨hi, hhi⟩ := Option.isSome_iff_exists.mp h1
    obtain ⟨lo, hlo⟩ := Option.isSome_iff_exists.mp h2
    obtain ⟨bs, hbs⟩ := Option.isSome_iff_exists.mp h3
    exact hnone hi lo bs hhi hlo hbs

/-- The function `ObjectIDFromHex` accepts exactly the strings of 24 hex digits. -/
theorem ObjectIDFromHex_ok_iff (s : String) :
    (∃ o, ObjectIDFromHex s = .ok o) ↔
      (s.data.length = 24 ∧ ∀ ch ∈ s.data, (fromHexChar ch).isSome = true) := by
  unfold ObjectIDFromHex
  by_cases hlen : s.data.length = 24
  · rw [if_neg (not_not.mpr hlen)]
    cases hd : hexDecode s.data with
    | none =>
      have hno := (hexDecode_isSome_iff s.data).not.mp (by simp [hd])
      constructor
      · rintro ⟨o, ho⟩
        cases ho
      · intro h
        exact absurd ⟨by omega, h.2⟩ hno
    | some bs =>
      have hall := ((hexDecode_isSome_iff s.data).mp (by simp [hd])).2
      have h12 : bs.length = 12 := by
        have := hexDecode_length s.data bs hd
        omega
      simp only [h12, dif_pos]
      exact ⟨fun _ => ⟨hlen, hall⟩, fun _ => ⟨_, rfl⟩⟩
  · rw [if_pos hlen]
    constructor
    · rintro ⟨o, ho⟩
      cases ho
    · intro h
      exact absurd h.1 hlen

/-! ### Tracking and finding by id -/

theorem find?_updateFirst (id : ObjectID) (m : ℚ) (s : VehicleStatus) (now : ℕ)
    (c : Collection) (h : c.any (fun d => decide (d.ID = id)) = true) :
    ∃ d ∈ c, d.ID = id ∧
      (updateFirst id m s now c).find? (fun d => decide (d.ID = id))
        = some (applyTrackingUpdate d m s now) := by
  induction c with
  | nil => simp at h
  | cons d rest ih =>
    by_cases hd : d.ID = id
    · refine ⟨d, List.mem_cons_self _ _, hd, ?_⟩
      simp [updateFirst, hd, applyTrackingUpdate]
    · have hrest : rest.any (fun d => decide (d.ID = id)) = true := by
        simpa [hd] using h
      obtain ⟨d', hmem, hid, hfind⟩ := ih hrest
      refine ⟨d', List.mem_cons_of_mem _ hmem, hid, ?_⟩
      simp [updateFirst, hd, hfind]

/-- What a successful `TrackingVehicle` means: the id decodes, a document has it, and
the collection afterwards is the one with the first such document updated. -/
theorem TrackingVehicle_ok_iff (c c' : Collection) (id : String) (m : ℚ)
    (s : VehicleStatus) (now : ℕ) :
    MongoVehicleRepository.TrackingVehicle c id m s now = (c', none) ↔
      ∃ oid, ObjectIDFromHex id = .ok oid ∧ c.any (fun d => decide (d.ID = oid)) = true ∧
        c' = updateFirst oid m s now c := by
  unfold MongoVehicleRepository.TrackingVehicle
  cases hid : ObjectIDFromHex id with
  | error e => simp
  | ok oid =>
    by_cases hany : c.any (fun d => decide (d.ID = oid)) = true
    · simp only [UpdateByID, hany, if_true]
      constructor
      · intro h
        exact ⟨oid, rfl, hany, (congrArg Prod.fst h).symm⟩
      · rintro ⟨oid', h1, -, h3⟩
        cases h1
        rw [h3]
        rfl
    · simp only [UpdateByID, hany]
      constructor
      · intro h
        simp at h
      · rintro ⟨oid', h1, h2, -⟩
        cases h1
        exact absurd h2 hany

/-- Claim C1. Handling one delivery issues exactly one acknowledgment call. It is
`Ack(false)` exactly when the body decodes and `TrackingVehicle`, called with the decoded
vehicle id, mileage and status, returns no error; otherwise it is `Nack(false, false)`.
After a decode the service is called once with the decoded fields; after a decode
failure it is not called and the store is the one before. -/
theorem consumeDelivery_ack_policy (unmarshal : String → Option TrackingDataRequest)
    (now : ℕ) (c : Collection) (body : String) :
    ((consumeDelivery unmarshal now c body).acks = [AckAction.Ack false] ∨
      (consumeDelivery unmarshal now c body).acks = [AckAction.Nack false false]) ∧
    ((consumeDelivery unmarshal now c body).acks = [AckAction.Ack false] ↔
      ∃ td, unmarshal body = some td ∧
        (MongoVehicleService.TrackingVehicle c td.VehicleID td.Mileage td.Status now).2
          = none) ∧
    (∀ td, unmarshal body = some td →
      (consumeDelivery unmarshal now c body).calls
          = [(td.VehicleID, td.Mileage, td.Status)] ∧
      (consumeDelivery unmarshal now c body).store
          = (MongoVehicleService.TrackingVehicle c td.VehicleID td.Mileage td.Status now).1) ∧
    (unmarshal body = none →
      (consumeDelivery unmarshal now c body).calls = [] ∧
      (consumeDelivery unmarshal now c body).store = c) := by
  unfold consumeDelivery
  cases hu : unmarshal body with
  | none => simp
  | some td =>
    rcases ht : MongoVehicleService.TrackingVehicle c td.VehicleID td.Mileage td.Status now
      with ⟨c', _ | e⟩ <;> simp [ht]

/-- Witness of C1 on the body `not json` with a decoder that rejects it: one
`Nack(false, false)`, no service call, the store as before. -/
theorem consumeDelivery_ack_policy_witness :
    (consumeDelivery (fun b => if b = "not json" then none else some ⟨b, 0, "active"⟩) 7 []
        "not json").calls = [] ∧
    (consumeDelivery (fun b => if b = "not json" then none else some ⟨b, 0, "active"⟩) 7 []
        "not json").store = [] :=
  (consumeDelivery_ack_policy (fun b => if b = "not json" then none else some ⟨b, 0, "active"⟩)
    7 [] "not json").2.2.2 (by decide)

/-- Claim C2. If `TrackingVehicle(id, m, s)` returns no error and `s` is a valid status,
then `FindVehicleByID(id)` on the store afterwards succeeds and the vehicle it returns
has mileage `m` and status `s`. -/
theorem FindVehicleByID_after_TrackingVehicle (c c' : Collection) (id : String) (m : ℚ)
    (s : VehicleStatus) (now : ℕ) (hs : VehicleStatus.Valid s = none)
    (h : MongoVehicleRepository.TrackingVehicle c id m s now = (c', none)) :
    ∃ v, MongoVehicleRepository.FindVehicleByID c' id = .ok v ∧
      v.Mileage = m ∧ v.VehicleStatus = s := by
  obtain ⟨oid, hid, hany, rfl⟩ := (TrackingVehicle_ok_iff c c' id m s now).mp h
  obtain ⟨d, _, _, hfind⟩ := find?_updateFirst oid m s now c hany
  refine ⟨applyTrackingUpdate d m s now, ?_, rfl, rfl⟩
  simp [MongoVehicleRepository.FindVehicleByID, hid, FindOne, hfind, Vehicle.Check,
    applyTrackingUpdate, hs]

/-- Claim C3. For an id that is well-formed hex but is the `_id` of no document,
`TrackingVehicle` returns the error `vehicle not found` and the store afterwards is the
store before. -/
theorem TrackingVehicle_not_found (c : Collection) (id : String) (oid : ObjectID) (m : ℚ)
    (s : VehicleStatus) (now : ℕ) (hid : ObjectIDFromHex id = .ok oid)
    (hnone : ∀ v ∈ c, v.ID ≠ oid) :
    MongoVehicleRepository.TrackingVehicle c id m s now = (c, some Err.vehicleNotFound) := by
  have hany : c.any (fun d => decide (d.ID = oid)) = false := by
    simpa [List.any_eq_false] using hnone
  simp [MongoVehicleRepository.TrackingVehicle, hid, UpdateByID, hany]

/-- Witness of C2: tracking the vehicle of `hinoStore` with mileage 150.5. -/
theorem FindVehicleByID_after_TrackingVehicle_witness :
    VehicleStatus.Valid "active" = none ∧
    ∃ v, MongoVehicleRepository.FindVehicleByID
        (MongoVehicleRepository.TrackingVehicle hinoStore "010101010101010101010101"
          (301 / 2) "active" 5).1 "010101010101010101010101" = .ok v ∧
      v.Mileage = 301 / 2 ∧ v.VehicleStatus = "active" :=
  ⟨by decide,
    FindVehicleByID_after_TrackingVehicle hinoStore _ "010101010101010101010101" (301 / 2)
      "active" 5 (by decide) (Prod.ext rfl (by decide))⟩

/-- Witness of C3: the all-zero id names no vehicle of `hinoStore`. -/
theorem TrackingVehicle_not_found_witness :
    ObjectIDFromHex "000000000000000000000000" = .ok NilObjectID ∧
    (∀ v ∈ hinoStore, v.ID ≠ NilObjectID) ∧
    MongoVehicleRepository.TrackingVehicle hinoStore "000000000000000000000000" 10 "active" 5
      = (hinoStore, some Err.vehicleNotFound) :=
  ⟨by decide, by decide,
    TrackingVehicle_not_found hinoStore "000000000000000000000000" NilObjectID 10 "active" 5
      (by decide) (by decide)⟩

/-- Claim C4, evaluated where it fails. `hinoStore` is reached from the empty store by one
successful `CreateVehicle`. `TrackingVehicle` with the status `stolen`, which is none of the
five valid statuses, returns no error and writes it; the consumer acknowledges the message
that carries it; `FindVehicleByID` then rejects the persisted vehicle. -/
theorem TrackingVehicle_writes_invalid_status :
    hinoStore = runCalls [] [Call.create hino 1 sampleID] ∧
    VehicleStatus.Valid "stolen" = some Err.invalidStatus ∧
    MongoVehicleRepository.TrackingVehicle hinoStore "010101010101010101010101" 10 "stolen" 5
      = ([{ hino with ID := sampleID, Mileage := 10, VehicleStatus := "stolen",
                      CreatedAt := 1, UpdatedAt := 5 }], none) ∧
    (consumeDelivery (fun _ => some ⟨"010101010101010101010101", 10, "stolen"⟩) 5 hinoStore
        "body").acks = [AckAction.Ack false] ∧
    MongoVehicleRepository.FindVehicleByID
        (MongoVehicleRepository.TrackingVehicle hinoStore "010101010101010101010101" 10
          "stolen" 5).1 "010101010101010101010101" = .error Err.invalidStatus := by
  decide

/-! ### Creating -/

/-- What a successful `CreateVehicle` means. -/
theorem CreateVehicle_ok (c : Collection) (v : Vehicle) (now : ℕ) (gen : ObjectID)
    (h : (MongoVehicleRepository.CreateVehicle c v now gen).2.2 = none) :
    VehicleStatus.Valid v.VehicleStatus = none ∧
    (∀ d ∈ c, d.ID ≠ (if v.ID.IsZero then gen else v.ID)) ∧
    (∀ d ∈ c, d.LicenseNumber ≠ v.LicenseNumber) ∧
    (MongoVehicleRepository.CreateVehicle c v now gen).1
      = { v with ID := (if v.ID.IsZero then gen else v.ID), CreatedAt := now,
                 UpdatedAt := now } ∧
    (MongoVehicleRepository.CreateVehicle c v now gen).2.1
      = c ++ [{ v with ID := (if v.ID.IsZero then gen else v.ID), CreatedAt := now,
                       UpdatedAt := now }] := by
  unfold MongoVehicleRepository.CreateVehicle Vehicle.Build at h ⊢
  cases hv : VehicleStatus.Valid v.VehicleStatus with
  | some e => simp [hv] at h
  | none =>
    simp only [hv] at h ⊢
    unfold InsertOne at h ⊢
    by_cases h1 : c.any (fun d => decide (d.ID = if v.ID.IsZero then gen else v.ID)) = true
    · simp [h1] at h
    · by_cases h2 : c.any (fun d => decide (d.LicenseNumber = v.LicenseNumber)) = true
      · simp [h1, h2] at h
      · simp only [h1, h2]
        simp only [List.any_eq_true, decide_eq_true_eq, not_exists, not_and] at h1 h2
        exact ⟨trivial, h1, h2, rfl, rfl⟩

/-- A failed `CreateVehicle` leaves the collection as it was. -/
theorem CreateVehicle_err (c : Collection) (v : Vehicle) (now : ℕ) (gen : ObjectID)
    (h : (MongoVehicleRepository.CreateVehicle c v now gen).2.2 ≠ none) :
    (MongoVehicleRepository.CreateVehicle c v now gen).2.1 = c := by
  unfold MongoVehicleRepository.CreateVehicle Vehicle.Build at h ⊢
  cases hv : VehicleStatus.Valid v.VehicleStatus with
  | some e => simp
  | none =>
    simp only [hv] at h ⊢
    unfold InsertOne at h ⊢
    by_cases h1 : c.any (fun d => decide (d.ID = if v.ID.IsZero then gen else v.ID)) = true
    · simp [h1]
    · by_cases h2 : c.any (fun d => decide (d.LicenseNumber = v.LicenseNumber)) = true
      · simp [h1, h2]
      · simp [h1, h2] at h

/-- `CreateVehicle` fails when the license number is already in the collection. -/
theorem CreateVehicle_dup (c : Collection) (v : Vehicle) (now : ℕ) (gen : ObjectID)
    (h : v.LicenseNumber ∈ c.map Vehicle.LicenseNumber) :
    (MongoVehicleRepository.CreateVehicle c v now gen).2.2 ≠ none := by
  intro hok
  obtain ⟨-, -, hlic, -, -⟩ := CreateVehicle_ok c v now gen hok
  obtain ⟨d, hd, hdl⟩ := List.mem_map.mp h
  exact hlic d hd hdl

theorem updateFirst_map_LicenseNumber (id : ObjectID) (m : ℚ) (s : VehicleStatus) (now : ℕ)
    (c : Collection) :
    (updateFirst id m s now c).map Vehicle.LicenseNumber = c.map Vehicle.LicenseNumber := by
  induction c with
  | nil => rfl
  | cons d rest ih =>
    by_cases hd : d.ID = id
    · simp [updateFirst, hd, applyTrackingUpdate]
    · simp [updateFirst, hd, ih]

/-- `TrackingVehicle` changes no license number. -/
theorem TrackingVehicle_map_LicenseNumber (c : Collection) (id : String) (m : ℚ)
    (s : VehicleStatus) (now : ℕ) :
    (MongoVehicleRepository.TrackingVehicle c id m s now).1.map Vehicle.LicenseNumber
      = c.map Vehicle.LicenseNumber := by
  unfold MongoVehicleRepository.TrackingVehicle
  cases ObjectIDFromHex id with
  | error e => rfl
  | ok oid =>
    by_cases hany : c.any (fun d => decide (d.ID = oid)) = true
    · simp only [UpdateByID, hany, if_true]
      exact updateFirst_map_LicenseNumber oid m s now c
    · simp only [UpdateByID, hany]
      rfl

/-- One call keeps the license numbers there are and keeps them distinct. -/
theorem Call.run_licenses (c : Collection) (call : Call) :
    (∀ l ∈ c.map Vehicle.LicenseNumber, l ∈ (call.run c).map Vehicle.LicenseNumber) ∧
    ((c.map Vehicle.LicenseNumber).Nodup → ((call.run c).map Vehicle.LicenseNumber).Nodup) := by
  cases call with
  | create v now gen =>
    simp only [Call.run]
    by_cases hok : (MongoVehicleRepository.CreateVehicle c v now gen).2.2 = none
    · obtain ⟨-, -, hlic, -, hstore⟩ := CreateVehicle_ok c v now gen hok
      rw [hstore]
      constructor
      · intro l hl
        simp only [List.map_append, List.mem_append]
        exact Or.inl hl
      · intro hnd
        simp only [List.map_append, List.map_cons, List.map_nil]
        refine List.Nodup.append hnd (List.nodup_singleton _) ?_
        intro l hl hl'
        obtain ⟨d, hd, hdl⟩ := List.mem_map.mp hl
        rw [List.mem_singleton] at hl'
        exact hlic d hd (hdl.trans hl')
    · rw [CreateVehicle_err c v now gen hok]
      exact ⟨fun _ h => h, fun h => h⟩
  | track id m s now =>
    simp only [Call.run, TrackingVehicle_map_LicenseNumber]
    exact ⟨fun _ h => h, fun h => h⟩

/-- A sequence of calls keeps the license numbers there are and keeps them distinct. -/
theorem runCalls_licenses (calls : List Call) (c : Collection) :
    (∀ l ∈ c.map Vehicle.LicenseNumber, l ∈ (runCalls c calls).map Vehicle.LicenseNumber) ∧
    ((c.map Vehicle.LicenseNumber).Nodup →
      ((runCalls c calls).map Vehicle.LicenseNumber).Nodup) := by
  induction calls generalizing c with
  | nil => exact ⟨fun _ h => h, fun h => h⟩
  | cons call rest ih =>
    obtain ⟨h1, h2⟩ := Call.run_licenses c call
    obtain ⟨h3, h4⟩ := ih (call.run c)
    exact ⟨fun l hl => h3 l (h1 l hl), fun hnd => h4 (h2 hnd)⟩

theorem updateFirst_map_ID (id : ObjectID) (m : ℚ) (s : VehicleStatus) (now : ℕ)
    (c : Collection) : (updateFirst id m s now c).map Vehicle.ID = c.map Vehicle.ID := by
  induction c with
  | nil => rfl
  | cons d rest ih =>
    by_cases hd : d.ID = id
    · simp [updateFirst, hd, applyTrackingUpdate]
    · simp [updateFirst, hd, ih]

/-- `TrackingVehicle` changes no id. -/
theorem TrackingVehicle_map_ID (c : Collection) (id : String) (m : ℚ) (s : VehicleStatus)
    (now : ℕ) :
    (MongoVehicleRepository.TrackingVehicle c id m s now).1.map Vehicle.ID
      = c.map Vehicle.ID := by
  unfold MongoVehicleRepository.TrackingVehicle
  cases ObjectIDFromHex id with
  | error e => rfl
  | ok oid =>
    by_cases hany : c.any (fun d => decide (d.ID = oid)) = true
    · simp only [UpdateByID, hany, if_true]
      exact updateFirst_map_ID oid m s now c
    · simp only [UpdateByID, hany]
      rfl

/-- The ids of a store reached from the empty one are distinct. -/
theorem runCalls_ids_nodup (calls : List Call) (c : Collection)
    (hc : (c.map Vehicle.ID).Nodup) : ((runCalls c calls).map Vehicle.ID).Nodup := by
  induction calls generalizing c with
  | nil => exact hc
  | cons call rest ih =>
    apply ih
    cases call with
    | create v now gen =>
      simp only [Call.run]
      by_cases hok : (MongoVehicleRepository.CreateVehicle c v now gen).2.2 = none
      · obtain ⟨-, hid, -, -, hstore⟩ := CreateVehicle_ok c v now gen hok
        rw [hstore]
        simp only [List.map_append, List.map_cons, List.map_nil]
        refine List.Nodup.append hc (List.nodup_singleton _) ?_
        intro i hi hi'
        obtain ⟨d, hd, hdi⟩ := List.mem_map.mp hi
        rw [List.mem_singleton] at hi'
        exact hid d hd (hdi.trans hi')
      · rw [CreateVehicle_err c v now gen hok]
        exact hc
    | track id m s now =>
      simp only [Call.run, TrackingVehicle_map_ID]
      exact hc

/-- Claim C5. After a successful `CreateVehicle(v)`, and after any further calls,
`CreateVehicle` of a vehicle with the license number of `v` returns an error and leaves
the store as it was; and in every store reached from the empty one no two vehicles share
a license number. -/
theorem license_number_unique :
    (∀ (c : Collection) (v : Vehicle) (now : ℕ) (gen : ObjectID),
      (MongoVehicleRepository.CreateVehicle c v now gen).2.2 = none →
      ∀ (calls : List Call) (v' : Vehicle) (now' : ℕ) (gen' : ObjectID),
        v'.LicenseNumber = v.LicenseNumber →
        (MongoVehicleRepository.CreateVehicle
            (runCalls (MongoVehicleRepository.CreateVehicle c v now gen).2.1 calls)
            v' now' gen').2.2 ≠ none ∧
        (MongoVehicleRepository.CreateVehicle
            (runCalls (MongoVehicleRepository.CreateVehicle c v now gen).2.1 calls)
            v' now' gen').2.1
          = runCalls (MongoVehicleRepository.CreateVehicle c v now gen).2.1 calls) ∧
    (∀ calls : List Call, ((runCalls [] calls).map Vehicle.LicenseNumber).Nodup) := by
  constructor
  · intro c v now gen hok calls v' now' gen' hlic
    have hmem : v'.LicenseNumber ∈
        (runCalls (MongoVehicleRepository.CreateVehicle c v now gen).2.1 calls).map
          Vehicle.LicenseNumber := by
      apply (runCalls_licenses calls _).1
      rw [(CreateVehicle_ok c v now gen hok).2.2.2.2, hlic]
      simp
    have herr := CreateVehicle_dup _ v' now' gen' hmem
    exact ⟨herr, CreateVehicle_err _ v' now' gen' herr⟩
  · intro calls
    exact (runCalls_licenses calls []).2 List.nodup_nil

/-- Witness of C5: `hino` is created in the empty store, `isuzu` is created and tracked,
and a second vehicle with the license number of `hino` is then refused. -/
theorem license_number_unique_witness :
    (MongoVehicleRepository.CreateVehicle [] hino 1 sampleID).2.2 = none ∧
    (MongoVehicleRepository.CreateVehicle
        (runCalls (MongoVehicleRepository.CreateVehicle [] hino 1 sampleID).2.1
          [Call.create isuzu 2 sampleID2, Call.track "020202020202020202020202" 40 "sold" 3])
        { isuzu with LicenseNumber := "AA-1" } 4 sampleID2).2.2 ≠ none :=
  ⟨by decide,
    (license_number_unique.1 [] hino 1 sampleID (by decide)
      [Call.create isuzu 2 sampleID2, Call.track "020202020202020202020202" 40 "sold" 3]
      { isuzu with LicenseNumber := "AA-1" } 4 sampleID2 rfl).1⟩

/-- Claim C6. After a successful `CreateVehicle(v)`, with a driver-generated id that is not
the zero id, the id of `v` is not zero and `FindVehicleByID` of its hex form succeeds and
returns a record with the id of `v` after the call and the name, model, license number,
status and mileage of `v`. -/
theorem FindVehicleByID_after_CreateVehicle (c : Collection) (v : Vehicle) (now : ℕ)
    (gen : ObjectID) (hgen : gen ≠ NilObjectID)
    (h : (MongoVehicleRepository.CreateVehicle c v now gen).2.2 = none) :
    (MongoVehicleRepository.CreateVehicle c v now gen).1.ID.IsZero = false ∧
    ∃ r, MongoVehicleRepository.FindVehicleByID
          (MongoVehicleRepository.CreateVehicle c v now gen).2.1
          (MongoVehicleRepository.CreateVehicle c v now gen).1.ID.Hex = .ok r ∧
      r.ID = (MongoVehicleRepository.CreateVehicle c v now gen).1.ID ∧
      r.VehicleName = v.VehicleName ∧ r.VehicleModel = v.VehicleModel ∧
      r.LicenseNumber = v.LicenseNumber ∧ r.VehicleStatus = v.VehicleStatus ∧
      r.Mileage = v.Mileage := by
  obtain ⟨hvalid, hid, -, hv, hstore⟩ := CreateVehicle_ok c v now gen h
  rw [hv, hstore]
  constructor
  · unfold ObjectID.IsZero
    by_cases hz : v.ID = NilObjectID
    · simp [hz, hgen]
    · simp [hz]
  · refine ⟨{ v with ID := (if v.ID.IsZero then gen else v.ID), CreatedAt := now,
                     UpdatedAt := now }, ?_, rfl, rfl, rfl, rfl, rfl, rfl⟩
    have hnone : c.find? (fun d => decide (d.ID = if v.ID.IsZero then gen else v.ID))
        = none := by
      simpa [List.find?_eq_none] using hid
    simp [MongoVehicleRepository.FindVehicleByID, ObjectIDFromHex_Hex, FindOne,
      List.find?_append, hnone, Vehicle.Check, hvalid]

/-- Witness of C6: creating `hino` in the empty store. -/
theorem FindVehicleByID_after_CreateVehicle_witness :
    sampleID ≠ NilObjectID ∧
    (MongoVehicleRepository.CreateVehicle [] hino 1 sampleID).2.2 = none ∧
    ∃ r, MongoVehicleRepository.FindVehicleByID
          (MongoVehicleRepository.CreateVehicle [] hino 1 sampleID).2.1
          (MongoVehicleRepository.CreateVehicle [] hino 1 sampleID).1.ID.Hex = .ok r ∧
      r.ID = (MongoVehicleRepository.CreateVehicle [] hino 1 sampleID).1.ID ∧
      r.VehicleName = hino.VehicleName ∧ r.VehicleModel = hino.VehicleModel ∧
      r.LicenseNumber = hino.LicenseNumber ∧ r.VehicleStatus = hino.VehicleStatus ∧
      r.Mileage = hino.Mileage :=
  ⟨by decide, by decide,
    (FindVehicleByID_after_CreateVehicle [] hino 1 sampleID (by decide) (by decide)).2⟩

/-! ### The filter -/

/-- The result of `Build` in closed form: the defaults and the clamp are applied in
every case, and the two checks decide the error and the decoded id. -/
theorem Build_eq (f : VehicleFilter) :
    f.Build =
      (match (if f.VehicleStatus ≠ "" then VehicleStatus.Valid f.VehicleStatus else none) with
      | some err =>
        ({ f with
            Page := if f.Page = 0 then 1 else f.Page
            PageSize :=
              if f.PageSize = 0 then 10 else if f.PageSize > 100 then 100 else f.PageSize
            SortField := if f.SortField = "" then "created_at" else f.SortField
            SortOrder := if f.SortOrder = "" then "asc" else f.SortOrder }, some err)
      | none =>
        if f.ID ≠ "" then
          match ObjectIDFromHex f.ID with
          | .error err =>
            ({ f with
                Page := if f.Page = 0 then 1 else f.Page
                PageSize :=
                  if f.PageSize = 0 then 10 else if f.PageSize > 100 then 100 else f.PageSize
                SortField := if f.SortField = "" then "created_at" else f.SortField
                SortOrder := if f.SortOrder = "" then "asc" else f.SortOrder }, some err)
          | .ok objectID =>
            ({ f with
                Page := if f.Page = 0 then 1 else f.Page
                PageSize :=
                  if f.PageSize = 0 then 10 else if f.PageSize > 100 then 100 else f.PageSize
                SortField := if f.SortField = "" then "created_at" else f.SortField
                SortOrder := if f.SortOrder = "" then "asc" else f.SortOrder
                id := objectID }, none)
        else
          ({ f with
              Page := if f.Page = 0 then 1 else f.Page
              PageSize :=
                if f.PageSize = 0 then 10 else if f.PageSize > 100 then 100 else f.PageSize
              SortField := if f.SortField = "" then "created_at" else f.SortField
              SortOrder := if f.SortOrder = "" then "asc" else f.SortOrder }, none)) := by
  obtain ⟨page, pageSize, sortField, sortOrder, ID, name, model, license, status, mileage,
    id⟩ := f
  unfold VehicleFilter.Build
  by_cases h1 : page = 0 <;> by_cases h2 : pageSize = 0 <;> by_cases h3 : pageSize > 100 <;>
    by_cases h4 : sortField = "" <;> by_cases h5 : sortOrder = "" <;>
    first
      | (exfalso; omega)
      | simp [h1, h2, h3, h4, h5]

/-- The fields of the filter after `Build`, whatever the error: the four defaulted or
clamped ones, and the predicates, which `Build` leaves. -/
theorem Build_fields (f : VehicleFilter) :
    f.Build.1.Page = (if f.Page = 0 then 1 else f.Page) ∧
    f.Build.1.PageSize
      = (if f.PageSize = 0 then 10 else if f.PageSize > 100 then 100 else f.PageSize) ∧
    f.Build.1.SortField = (if f.SortField = "" then "created_at" else f.SortField) ∧
    f.Build.1.SortOrder = (if f.SortOrder = "" then "asc" else f.SortOrder) ∧
    f.Build.1.ID = f.ID ∧ f.Build.1.VehicleName = f.VehicleName ∧
    f.Build.1.VehicleModel = f.VehicleModel ∧ f.Build.1.LicenseNumber = f.LicenseNumber ∧
    f.Build.1.VehicleStatus = f.VehicleStatus ∧ f.Build.1.Mileage = f.Mileage := by
  rw [Build_eq]
  cases (if f.VehicleStatus ≠ "" then VehicleStatus.Valid f.VehicleStatus else none) with
  | some e => exact ⟨rfl, rfl, rfl, rfl, rfl, rfl, rfl, rfl, rfl, rfl⟩
  | none =>
    by_cases hID : f.ID = ""
    · rw [if_neg (not_not.mpr hID)]
      exact ⟨rfl, rfl, rfl, rfl, rfl, rfl, rfl, rfl, rfl, rfl⟩
    · rw [if_pos hID]
      cases ObjectIDFromHex f.ID <;> exact ⟨rfl, rfl, rfl, rfl, rfl, rfl, rfl, rfl, rfl, rfl⟩

/-- The error of `Build` and the id it decodes. -/
theorem Build_snd (f : VehicleFilter) :
    f.Build.2 =
      (match (if f.VehicleStatus ≠ "" then VehicleStatus.Valid f.VehicleStatus else none) with
      | some err => some err
      | none =>
        if f.ID ≠ "" then
          match ObjectIDFromHex f.ID with
          | .error err => some err
          | .ok _ => none
        else none) ∧
    (f.Build.2 = none → f.ID ≠ "" → ObjectIDFromHex f.ID = .ok f.Build.1.id) ∧
    (f.Build.2 = none → f.ID = "" → f.Build.1.id = f.id) := by
  rw [Build_eq]
  cases (if f.VehicleStatus ≠ "" then VehicleStatus.Valid f.VehicleStatus else none) with
  | some e => simp
  | none =>
    by_cases hID : f.ID = ""
    · simp [hID]
    · simp only [ne_eq, hID, not_false_eq_true, if_true]
      cases ObjectIDFromHex f.ID <;> simp

theorem Valid_eq_none_iff (s : VehicleStatus) :
    VehicleStatus.Valid s = none ↔ s ∈ ["active", "inactive", "repair", "sold", "rented"] := by
  unfold VehicleStatus.Valid
  split_ifs with h <;> simp [h]

/-- Claim C7. `Build` sets `Page` to 1 when it is 0 and leaves any other `Page`; it sets
`PageSize` to 10 when it is 0, to 100 when it is greater than 100, and leaves it
otherwise. -/
theorem Build_pagination (f : VehicleFilter) :
    (f.Page = 0 → f.Build.1.Page = 1) ∧ (f.Page ≠ 0 → f.Build.1.Page = f.Page) ∧
    (f.PageSize = 0 → f.Build.1.PageSize = 10) ∧
    (f.PageSize > 100 → f.Build.1.PageSize = 100) ∧
    (f.PageSize ≠ 0 → f.PageSize ≤ 100 → f.Build.1.PageSize = f.PageSize) := by
  obtain ⟨hp, hs, -⟩ := Build_fields f
  rw [hp, hs]
  refine ⟨?_, ?_, ?_, ?_, ?_⟩
  · intro h; simp [h]
  · intro h; simp [h]
  · intro h; simp [h]
  · intro h
    have h0 : f.PageSize ≠ 0 := by omega
    simp [h0, h]
  · intro h0 h100
    have h' : ¬ f.PageSize > 100 := by omega
    simp [h0, h']

/-- Witness of C7: page 0 with page size 250 becomes page 1 with page size 100, and page 3
with page size 0 becomes page 3 with page size 10. -/
theorem Build_pagination_witness :
    (pageFilter 0 250).Build.1.Page = 1 ∧ (pageFilter 0 250).Build.1.PageSize = 100 ∧
    (pageFilter 3 0).Build.1.Page = 3 ∧ (pageFilter 3 0).Build.1.PageSize = 10 :=
  ⟨(Build_pagination (pageFilter 0 250)).1 (by decide),
    (Build_pagination (pageFilter 0 250)).2.2.2.1 (by decide),
    (Build_pagination (pageFilter 3 0)).2.1 (by decide),
    (Build_pagination (pageFilter 3 0)).2.2.1 (by decide)⟩

/-- Claim C9. `Build` returns an error exactly when `VehicleStatus` is non-empty and none
of the five valid statuses, or `ID` is non-empty and does not decode as a hex object id.
An empty status with an empty id is accepted, and after a success with a non-empty `ID`
the filter's `ObjectID()` is the id that `ID` decodes to. -/
theorem Build_error_iff (f : VehicleFilter) :
    (f.Build.2 ≠ none ↔
      (f.VehicleStatus ≠ "" ∧
        f.VehicleStatus ∉ ["active", "inactive", "repair", "sold", "rented"]) ∨
      (f.ID ≠ "" ∧ ∀ o, ObjectIDFromHex f.ID ≠ .ok o)) ∧
    (f.VehicleStatus = "" → f.ID = "" → f.Build.2 = none) ∧
    (f.Build.2 = none → f.ID ≠ "" → ObjectIDFromHex f.ID = .ok f.Build.1.ObjectID) := by
  obtain ⟨h2, hid, -⟩ := Build_snd f
  refine ⟨?_, ?_, hid⟩
  · rw [h2]
    by_cases hs : f.VehicleStatus = ""
    · by_cases hID : f.ID = ""
      · simp [hs, hID]
      · cases hdec : ObjectIDFromHex f.ID <;> simp [hs, hID, hdec]
    · by_cases hv : f.VehicleStatus ∈ ["active", "inactive", "repair", "sold", "rented"]
      · have hvalid := (Valid_eq_none_iff f.VehicleStatus).mpr hv
        by_cases hID : f.ID = ""
        · simp [hs, hID, hvalid, hv]
        · cases hdec : ObjectIDFromHex f.ID <;> simp [hs, hID, hdec, hvalid, hv]
      · have hinvalid : VehicleStatus.Valid f.VehicleStatus = some Err.invalidStatus := by
          have := mt (Valid_eq_none_iff f.VehicleStatus).mp hv
          unfold VehicleStatus.Valid at this ⊢
          split_ifs at this ⊢ with h
          · exact absurd rfl this
          · rfl
        simp [hs, hinvalid, hv]
  · intro hs hID
    rw [h2]
    simp [hs, hID]

/-- Witness of C9: a filter with the valid status `sold` and a well-formed id is accepted
and holds the decoded id. -/
theorem Build_error_iff_witness :
    soldFilter.Build.2 = none ∧ soldFilter.ID ≠ "" ∧
    ObjectIDFromHex soldFilter.ID = .ok soldFilter.Build.1.ObjectID :=
  ⟨by decide, by decide, (Build_error_iff soldFilter).2.2 (by decide) (by decide)⟩

/-! ### Queries -/

theorem bsonLE_total (a b : BsonValue) : a.le b ∨ b.le a := by
  cases a <;> cases b <;> simp only [BsonValue.le, BsonValue.rank] <;>
    exact le_total _ _

theorem bsonLE_trans (a b c : BsonValue) (hab : a.le b) (hbc : b.le c) : a.le c := by
  cases a <;> cases b <;> cases c <;> simp only [BsonValue.le, BsonValue.rank] at hab hbc ⊢ <;>
    first
      | exact le_trans hab hbc
      | omega

theorem sortLE_total (key : String) (order : ℤ) (a b : Vehicle) :
    sortLE key order a b ∨ sortLE key order b a := by
  unfold sortLE
  split_ifs
  · exact bsonLE_total _ _
  · exact bsonLE_total _ _

theorem sortLE_trans (key : String) (order : ℤ) (a b c : Vehicle)
    (hab : sortLE key order a b) (hbc : sortLE key order b c) : sortLE key order a c := by
  unfold sortLE at hab hbc ⊢
  split_ifs at hab hbc ⊢
  · exact bsonLE_trans _ _ _ hbc hab
  · exact bsonLE_trans _ _ _ hab hbc

/-- The order of a sort specification with the order value -1. -/
theorem sortLE_desc (key : String) :
    sortLE key (-1) = fun a b => (b.field key).le (a.field key) := by
  funext a b
  simp [sortLE]

/-- The order of a sort specification with the order value 1. -/
theorem sortLE_asc (key : String) :
    sortLE key 1 = fun a b => (a.field key).le (b.field key) := by
  funext a b
  simp [sortLE]

/-- The sort stage with a sort specification returns its documents in that order. -/
theorem sortStage_sorted (key : String) (order : ℤ) (docs : List Vehicle) :
    (sortStage (some (key, order)) docs).Sorted (sortLE key order) := by
  haveI : IsTotal Vehicle (sortLE key order) := ⟨sortLE_total key order⟩
  haveI : IsTrans Vehicle (sortLE key order) := ⟨sortLE_trans key order⟩
  exact List.sorted_insertionSort (sortLE key order) docs

/-- The sort stage permutes its documents. -/
theorem sortStage_perm (sort : Option (String × ℤ)) (docs : List Vehicle) :
    (sortStage sort docs).Perm docs := by
  cases sort with
  | none => exact List.Perm.refl _
  | some s => exact List.perm_insertionSort _ docs

/-- The limit stage returns a prefix. -/
theorem limitStage_sublist (limit : Option ℤ) (docs : List Vehicle) :
    (limitStage limit docs).Sublist docs := by
  unfold limitStage
  cases limit with
  | none => exact List.Sublist.refl _
  | some n =>
    simp only
    split_ifs
    · exact List.Sublist.refl _
    · exact List.take_sublist _ _

/-- What a successful `Find` returns. -/
theorem Find_ok (re : RegexEngine) (c : Collection) (filter : BsonFilter) (opts : FindOptions)
    (l : List Vehicle) (h : Find re c filter opts = .ok l) :
    ∃ pred, filter.compile re = some pred ∧ 0 ≤ opts.skip.getD 0 ∧
      l = limitStage opts.limit
            ((sortStage opts.sort (c.filter pred)).drop (opts.skip.getD 0).toNat) := by
  unfold Find at h
  cases hc : filter.compile re with
  | none => simp [hc] at h
  | some pred =>
    simp only [hc] at h
    by_cases hs : opts.skip.getD 0 < 0
    · simp [hs] at h
    · simp only [hs, if_false, Except.ok.injEq] at h
      exact ⟨pred, rfl, not_lt.mp hs, h.symm⟩

/-- What `FindVehicles` does with a filter: the error of `Build`, or the query built from
the filter after `Build`. -/
theorem FindVehicles_eq (re : RegexEngine) (c : Collection) (f : VehicleFilter) :
    MongoVehicleRepository.FindVehicles re c (some f) =
      match f.Build.2 with
      | some err => .error err
      | none => Find re c (findVehiclesFilter f.Build.1) (findVehiclesOptions f.Build.1) := by
  unfold MongoVehicleRepository.FindVehicles
  dsimp only
  rcases f.Build with ⟨g, _ | e⟩ <;> rfl

/-- Claim C8. `Build` replaces an empty `SortField` by `created_at` and an empty
`SortOrder` by `asc`. `FindVehicles` asks the store for the order value -1 exactly when
`SortOrder` is `desc` and for 1 otherwise. What it returns is cut out of a list that holds
exactly the matching vehicles, in non-increasing order of the sort field when `SortOrder`
is `desc` and in non-decreasing order for every other value: that list without the
first `skip` vehicles, up to the limit. So the returned list is itself non-increasing,
respectively non-decreasing, in the sort field. -/
theorem FindVehicles_sorted (re : RegexEngine) (c : Collection) (f : VehicleFilter) :
    (f.SortField = "" → f.Build.1.SortField = "created_at") ∧
    (f.SortField ≠ "" → f.Build.1.SortField = f.SortField) ∧
    (f.SortOrder = "" → f.Build.1.SortOrder = "asc") ∧
    (f.SortOrder ≠ "" → f.Build.1.SortOrder = f.SortOrder) ∧
    (findVehiclesOptions f.Build.1).sort
      = some (f.Build.1.SortField, if f.SortOrder = "desc" then -1 else 1) ∧
    ∀ l, MongoVehicleRepository.FindVehicles re c (some f) = .ok l →
      (∃ (pred : Vehicle → Bool) (all : List Vehicle),
        (findVehiclesFilter f.Build.1).compile re = some pred ∧
        all.Perm (c.filter pred) ∧
        (f.SortOrder = "desc" →
          all.Sorted (fun a b =>
            (b.field f.Build.1.SortField).le (a.field f.Build.1.SortField))) ∧
        (f.SortOrder ≠ "desc" →
          all.Sorted (fun a b =>
            (a.field f.Build.1.SortField).le (b.field f.Build.1.SortField))) ∧
        l = limitStage (some f.Build.1.PageSize)
              (all.drop ((findVehiclesOptions f.Build.1).skip.getD 0).toNat)) ∧
      (f.SortOrder = "desc" →
        l.Sorted (fun a b => (b.field f.Build.1.SortField).le (a.field f.Build.1.SortField))) ∧
      (f.SortOrder ≠ "desc" →
        l.Sorted (fun a b => (a.field f.Build.1.SortField).le (b.field f.Build.1.SortField))) := by
  obtain ⟨-, -, hsf, hso, -⟩ := Build_fields f
  have hfield : f.Build.1.SortField ≠ "" := by
    rw [hsf]
    split_ifs with h
    · decide
    · exact h
  have horder : (f.Build.1.SortOrder = "desc") = (f.SortOrder = "desc") := by
    rw [hso]
    by_cases h : f.SortOrder = ""
    · simp [h]
    · simp [h]
  have hsort : (findVehiclesOptions f.Build.1).sort
      = some (f.Build.1.SortField, if f.SortOrder = "desc" then -1 else 1) := by
    simp only [findVehiclesOptions, hfield, ne_eq, not_false_eq_true, if_true, horder]
  refine ⟨?_, ?_, ?_, ?_, hsort, ?_⟩
  · intro h; rw [hsf]; simp [h]
  · intro h; rw [hsf]; simp [h]
  · intro h; rw [hso]; simp [h]
  · intro h; rw [hso]; simp [h]
  · intro l hl
    rw [FindVehicles_eq] at hl
    cases hb : f.Build.2 with
    | some e => simp [hb] at hl
    | none =>
      simp only [hb] at hl
      obtain ⟨pred, hpred, -, rfl⟩ := Find_ok re c _ _ l hl
      rw [hsort]
      have hall := sortStage_sorted f.Build.1.SortField (if f.SortOrder = "desc" then -1 else 1)
        (c.filter pred)
      have hsub := (limitStage_sublist (some f.Build.1.PageSize)
        ((sortStage (some (f.Build.1.SortField, if f.SortOrder = "desc" then -1 else 1))
          (c.filter pred)).drop
          ((findVehiclesOptions f.Build.1).skip.getD 0).toNat)).trans (List.drop_sublist _ _)
      have hsorted := List.Pairwise.sublist hsub hall
      refine ⟨⟨pred,
        sortStage (some (f.Build.1.SortField, if f.SortOrder = "desc" then -1 else 1))
          (c.filter pred),
        hpred, sortStage_perm _ _, ?_, ?_, rfl⟩, ?_, ?_⟩
      · intro hd
        simp only [hd, if_true, sortLE_desc] at hall
        simp only [hd, if_true]
        exact hall
      · intro hd
        simp only [hd, if_false, sortLE_asc] at hall
        simp only [hd, if_false]
        exact hall
      · intro hd
        simp only [hd, if_true, sortLE_desc] at hsorted
        simp only [hd, if_true]
        exact hsorted
      · intro hd
        simp only [hd, if_false, sortLE_asc] at hsorted
        simp only [hd, if_false]
        exact hsorted

/-- Witness of C8 on a store with two vehicles, `Hino` created before `Isuzu`, and the
default sort field `created_at`: with the sort order `desc` the query returns `Isuzu`
before `Hino`, with the sort order `DESC`, which is not `desc`, it returns `Hino` before
`Isuzu`, and each list is ordered as the theorem says. -/
theorem FindVehicles_sorted_witness :
    (descFilter.SortField = "" ∧ descFilter.SortOrder = "desc") ∧
    (upperDescFilter.SortField = "" ∧ upperDescFilter.SortOrder ≠ "desc") ∧
    descFilter.Build.1.SortField = "created_at" ∧
    ∃ a b, twoStore = [a, b] ∧ a.VehicleName = "Hino" ∧ b.VehicleName = "Isuzu" ∧
      a.CreatedAt = 1 ∧ b.CreatedAt = 2 ∧
      MongoVehicleRepository.FindVehicles anyRegex twoStore (some descFilter) = .ok [b, a] ∧
      MongoVehicleRepository.FindVehicles anyRegex twoStore (some upperDescFilter)
        = .ok [a, b] ∧
      [b, a].Sorted (fun x y =>
        (y.field descFilter.Build.1.SortField).le (x.field descFilter.Build.1.SortField)) ∧
      [a, b].Sorted (fun x y =>
        (x.field upperDescFilter.Build.1.SortField).le
          (y.field upperDescFilter.Build.1.SortField)) :=
  ⟨by decide, by decide, (FindVehicles_sorted anyRegex twoStore descFilter).1 (by decide),
    _, _, rfl, by decide, by decide, by decide, by decide, by decide, by decide,
    ((FindVehicles_sorted anyRegex twoStore descFilter).2.2.2.2.2 _ (by decide)).2.1
      (by decide),
    ((FindVehicles_sorted anyRegex twoStore upperDescFilter).2.2.2.2.2 _ (by decide)).2.2
      (by decide)⟩

/-! ### Pages -/

/-- A value in the 64-bit range is not changed by wrapping. -/
theorem wrapInt64_of_fits (x : ℤ) (h1 : -2 ^ 63 ≤ x) (h2 : x < 2 ^ 63) : wrapInt64 x = x := by
  unfold wrapInt64
  omega

/-- Two slices of a list without duplicates that do not overlap share no element. -/
theorem take_drop_disjoint {α : Type} (l : List α) (hl : l.Nodup) (a b n m : ℕ)
    (h : a + n ≤ b) : ((l.drop a).take n).Disjoint ((l.drop b).take m) := by
  have hsplit : (l.take b ++ l.drop b).Nodup := by rwa [List.take_append_drop]
  have hdis := List.disjoint_of_nodup_append hsplit
  intro x hx hx'
  apply hdis (a := x)
  · rw [List.take_drop] at hx
    exact List.take_subset_take_left l h ((List.drop_sublist a _).subset hx)
  · exact (List.take_sublist m _).subset hx'

/-- The documents of a collection with distinct ids are still distinct after the filter
and the sort stage. -/
theorem sortStage_filter_nodup (c : Collection) (hc : (c.map Vehicle.ID).Nodup)
    (sort : Option (String × ℤ)) (pred : Vehicle → Bool) :
    (sortStage sort (c.filter pred)).Nodup :=
  (sortStage_perm sort (c.filter pred)).nodup_iff.mpr
    (List.Nodup.sublist (List.filter_sublist c) (List.Nodup.of_map _ hc))

/-- The page `FindVehicles` returns for a filter whose page size after `Build` is at
least 1: the matching documents in sort order, without the first `skip` of them, cut at
the page size, where `skip` is the `int64` value the method computes. -/
theorem FindVehicles_page (re : RegexEngine) (c : Collection) (g : VehicleFilter)
    (l : List Vehicle) (hsize : 1 ≤ g.Build.1.PageSize)
    (h : MongoVehicleRepository.FindVehicles re c (some g) = .ok l) :
    g.Build.2 = none ∧
    ∃ pred, (findVehiclesFilter g.Build.1).compile re = some pred ∧
      0 ≤ wrapInt64 (wrapInt64 (g.Build.1.Page - 1) * g.Build.1.PageSize) ∧
      l = ((sortStage (findVehiclesOptions g.Build.1).sort (c.filter pred)).drop
            (wrapInt64 (wrapInt64 (g.Build.1.Page - 1) * g.Build.1.PageSize)).toNat).take
            g.Build.1.PageSize.toNat := by
  rw [FindVehicles_eq] at h
  cases hb : g.Build.2 with
  | some e => simp [hb] at h
  | none =>
    simp only [hb] at h
    obtain ⟨pred, hpred, hskip, rfl⟩ := Find_ok re c _ _ l h
    refine ⟨rfl, pred, hpred, hskip, ?_⟩
    have h0 : g.Build.1.PageSize ≠ 0 := by omega
    have habs : g.Build.1.PageSize.natAbs = g.Build.1.PageSize.toNat := by omega
    simp only [findVehiclesOptions, limitStage, h0, if_false, Option.getD_some, habs]

/-- Two filters with the same predicates and the same sort fields, both accepted by
`Build`, give the same query document and the same sort specification. -/
theorem findVehicles_query_congr (f g : VehicleFilter) (hf : f.Build.2 = none)
    (hg : g.Build.2 = none) (hID : f.ID = g.ID) (hid : f.id = g.id)
    (hname : f.VehicleName = g.VehicleName) (hmodel : f.VehicleModel = g.VehicleModel)
    (hlicense : f.LicenseNumber = g.LicenseNumber) (hstatus : f.VehicleStatus = g.VehicleStatus)
    (hmileage : f.Mileage = g.Mileage) (hfield : f.SortField = g.SortField)
    (horder : f.SortOrder = g.SortOrder) :
    findVehiclesFilter f.Build.1 = findVehiclesFilter g.Build.1 ∧
    (findVehiclesOptions f.Build.1).sort = (findVehiclesOptions g.Build.1).sort := by
  obtain ⟨-, -, f3, f4, f5, f6, f7, f8, f9, f10⟩ := Build_fields f
  obtain ⟨-, -, g3, g4, g5, g6, g7, g8, g9, g10⟩ := Build_fields g
  obtain ⟨-, fdec, fkeep⟩ := Build_snd f
  obtain ⟨-, gdec, gkeep⟩ := Build_snd g
  have hobj : f.Build.1.id = g.Build.1.id := by
    by_cases he : f.ID = ""
    · rw [fkeep hf he, gkeep hg (hID ▸ he), hid]
    · have h1 := fdec hf he
      have h2 := gdec hg (hID ▸ he)
      rw [hID, h2] at h1
      exact (Except.ok.inj h1).symm
  constructor
  · simp only [findVehiclesFilter, VehicleFilter.ObjectID, f5, f6, f7, f8, f9, f10, g5, g6, g7,
      g8, g9, g10, hobj, hID, hname, hmodel, hlicense, hstatus, hmileage]
  · simp only [findVehiclesOptions, f3, f4, g3, g4, hfield, horder]

/-- The page and the page size after `Build` of a filter asked for page `k ≥ 1` with page
size `n ≥ 1`. -/
theorem atPage_Build (f : VehicleFilter) (k n : ℤ) (hk : 1 ≤ k) (hn : 1 ≤ n) :
    (f.atPage k n).Build.1.Page = k ∧ (f.atPage k n).Build.1.PageSize = min n 100 := by
  obtain ⟨hp, hs, -⟩ := Build_fields (f.atPage k n)
  rw [hp, hs]
  simp only [VehicleFilter.atPage]
  constructor
  · split_ifs <;> omega
  · split_ifs <;> omega

/-- The skip `FindVehicles` computes for page `k ≥ 1` is `(k - 1) * PageSize` when that
product is less than `2 ^ 63`. -/
theorem skip_of_fits (k ps : ℤ) (hk : 1 ≤ k) (hps : 1 ≤ ps) (hfit : (k - 1) * ps < 2 ^ 63) :
    wrapInt64 (wrapInt64 (k - 1) * ps) = (k - 1) * ps ∧ 0 ≤ (k - 1) * ps := by
  have hnonneg : 0 ≤ (k - 1) * ps := mul_nonneg (by omega) (by omega)
  have hle : k - 1 ≤ (k - 1) * ps := by nlinarith
  rw [wrapInt64_of_fits (k - 1) (by omega) (by omega),
    wrapInt64_of_fits ((k - 1) * ps) (by omega) hfit]
  exact ⟨rfl, hnonneg⟩

/-- Claim C10, amended. For a page `k ≥ 1` and a page size `n ≥ 1`, `FindVehicles` returns
at most `n` items. When `(k - 1) * PageSize`, with `PageSize = min n 100` the clamped size,
is less than `2 ^ 63`, they are the items of the sorted list of matching vehicles after
skipping `(k - 1) * PageSize` of them, cut at `PageSize`; and two different pages that
both satisfy this bound return no vehicle in common, in a store whose ids are distinct. -/
theorem FindVehicles_pages (re : RegexEngine) (c : Collection) (f : VehicleFilter) (k n : ℤ)
    (hk : 1 ≤ k) (hn : 1 ≤ n) (hc : (c.map Vehicle.ID).Nodup) :
    (∀ l, MongoVehicleRepository.FindVehicles re c (some (f.atPage k n)) = .ok l →
      (l.length : ℤ) ≤ n ∧
      ((k - 1) * min n 100 < 2 ^ 63 →
        ∃ pred, (findVehiclesFilter (f.atPage k n).Build.1).compile re = some pred ∧
          l = ((sortStage (findVehiclesOptions (f.atPage k n).Build.1).sort
                  (c.filter pred)).drop ((k - 1) * min n 100).toNat).take
                (min n 100).toNat)) ∧
    (∀ k' l l', 1 ≤ k' → k ≠ k' →
      (k - 1) * min n 100 < 2 ^ 63 → (k' - 1) * min n 100 < 2 ^ 63 →
      MongoVehicleRepository.FindVehicles re c (some (f.atPage k n)) = .ok l →
      MongoVehicleRepository.FindVehicles re c (some (f.atPage k' n)) = .ok l' →
      l.Disjoint l') := by
  have hps : (1 : ℤ) ≤ min n 100 := by omega
  constructor
  · intro l hl
    obtain ⟨hp, hs⟩ := atPage_Build f k n hk hn
    obtain ⟨-, pred, hpred, -, hlist⟩ := FindVehicles_page re c (f.atPage k n) l (by omega) hl
    rw [hp, hs] at hlist
    constructor
    · have hlen : l.length ≤ (min n 100).toNat := by
        rw [hlist]
        exact List.length_take_le _ _
      omega
    · intro hfit
      rw [(skip_of_fits k (min n 100) hk hps hfit).1] at hlist
      exact ⟨pred, hpred, hlist⟩
  · intro k' l l' hk' hne hfit hfit' hl hl'
    obtain ⟨hp, hs⟩ := atPage_Build f k n hk hn
    obtain ⟨hp', hs'⟩ := atPage_Build f k' n hk' hn
    obtain ⟨hb, pred, hpred, -, hlist⟩ :=
      FindVehicles_page re c (f.atPage k n) l (by omega) hl
    obtain ⟨hb', pred', hpred', -, hlist'⟩ :=
      FindVehicles_page re c (f.atPage k' n) l' (by omega) hl'
    obtain ⟨hquery, hsort⟩ := findVehicles_query_congr (f.atPage k n) (f.atPage k' n) hb hb'
      rfl rfl rfl rfl rfl rfl rfl rfl rfl
    rw [hquery, hpred'] at hpred
    cases hpred
    rw [hp, hs, (skip_of_fits k (min n 100) hk hps hfit).1, hsort] at hlist
    rw [hp', hs', (skip_of_fits k' (min n 100) hk' hps hfit').1] at hlist'
    have hnodup := sortStage_filter_nodup c hc (findVehiclesOptions (f.atPage k' n).Build.1).sort
      pred
    have h0 := (skip_of_fits k (min n 100) hk hps hfit).2
    have h0' := (skip_of_fits k' (min n 100) hk' hps hfit').2
    rw [hlist, hlist']
    rcases lt_or_gt_of_ne hne with hlt | hgt
    · apply take_drop_disjoint _ hnodup
      have hstep : (k - 1) * min n 100 + min n 100 ≤ (k' - 1) * min n 100 := by nlinarith
      omega
    · apply List.Disjoint.symm
      apply take_drop_disjoint _ hnodup
      have hstep : (k' - 1) * min n 100 + min n 100 ≤ (k - 1) * min n 100 := by nlinarith
      omega

/-- Witness of C10 as amended: pages 1 and 2 of size 1 of a store with two vehicles. -/
theorem FindVehicles_pages_witness :
    (twoStore.map Vehicle.ID).Nodup ∧
    (∃ a b, twoStore = [a, b] ∧
      MongoVehicleRepository.FindVehicles anyRegex twoStore (some ((pageFilter 0 0).atPage 1 1))
        = .ok [a] ∧
      MongoVehicleRepository.FindVehicles anyRegex twoStore (some ((pageFilter 0 0).atPage 2 1))
        = .ok [b]) ∧
    ∀ l l',
      MongoVehicleRepository.FindVehicles anyRegex twoStore (some ((pageFilter 0 0).atPage 1 1))
        = .ok l →
      MongoVehicleRepository.FindVehicles anyRegex twoStore (some ((pageFilter 0 0).atPage 2 1))
        = .ok l' →
      l.Disjoint l' :=
  ⟨by decide, ⟨_, _, rfl, by decide, by decide⟩,
    fun l l' =>
      (FindVehicles_pages anyRegex twoStore (pageFilter 0 0) 1 1 (by decide) (by decide)
        (by decide)).2 2 l l' (by decide) (by decide) (by decide) (by decide)⟩

/-- Counterexample to C10 as stated. In a store with one vehicle, page 1 and page
`2 ^ 62 + 1` of size 100 both return that vehicle: the skip `2 ^ 62 * 100` is `25 * 2 ^ 64`
and wraps to 0 in 64-bit arithmetic, while skipping `(k - 1) * PageSize` documents would
leave nothing. -/
theorem FindVehicles_pages_overlap :
    (1 : ℤ) ≤ 2 ^ 62 + 1 ∧ (2 : ℤ) ^ 62 + 1 < 2 ^ 63 ∧ (1 : ℤ) ≠ 2 ^ 62 + 1 ∧
    (hinoStore.map Vehicle.ID).Nodup ∧
    hinoStore.drop ((2 ^ 62 + 1 - 1) * 100 : ℤ).toNat = [] ∧
    ∃ v, MongoVehicleRepository.FindVehicles anyRegex hinoStore
          (some ((pageFilter 0 0).atPage 1 100)) = .ok [v] ∧
      MongoVehicleRepository.FindVehicles anyRegex hinoStore
          (some ((pageFilter 0 0).atPage (2 ^ 62 + 1) 100)) = .ok [v] ∧
      ¬ [v].Disjoint [v] := by
  refine ⟨by decide, by decide, by decide, by decide, by decide,
    { hino with ID := sampleID, CreatedAt := 1, UpdatedAt := 1 }, by decide, by decide, ?_⟩
  simp

/-! ### Repeated tracking -/

theorem updateFirst_any (id oid : ObjectID) (m : ℚ) (s : VehicleStatus) (now : ℕ)
    (c : Collection) :
    (updateFirst id m s now c).any (fun d => decide (d.ID = oid))
      = c.any (fun d => decide (d.ID = oid)) := by
  induction c with
  | nil => rfl
  | cons d rest ih =>
    by_cases hd : d.ID = id
    · simp [updateFirst, hd, applyTrackingUpdate]
    · simp [updateFirst, hd, ih]

/-- Updating the first document with an id a second time, with the same mileage and
status, changes nothing but `updated_at`. -/
theorem updateFirst_twice (id : ObjectID) (m : ℚ) (s : VehicleStatus) (now now' : ℕ)
    (c : Collection) :
    (updateFirst id m s now' (updateFirst id m s now c)).map Vehicle.withoutUpdatedAt
      = (updateFirst id m s now c).map Vehicle.withoutUpdatedAt := by
  induction c with
  | nil => rfl
  | cons d rest ih =>
    by_cases hd : d.ID = id
    · simp [updateFirst, hd, applyTrackingUpdate, Vehicle.withoutUpdatedAt]
    · simp [updateFirst, hd, ih]

/-- The collection after `TrackingVehicle`: the first document with the decoded id
updated when there is one, the collection as it was otherwise. -/
theorem TrackingVehicle_store (c : Collection) (id : String) (m : ℚ) (s : VehicleStatus)
    (now : ℕ) :
    (MongoVehicleRepository.TrackingVehicle c id m s now).1 =
      match ObjectIDFromHex id with
      | .error _ => c
      | .ok oid =>
        if c.any (fun d => decide (d.ID = oid)) then updateFirst oid m s now c else c := by
  unfold MongoVehicleRepository.TrackingVehicle
  cases ObjectIDFromHex id with
  | error e => rfl
  | ok oid =>
    by_cases hany : c.any (fun d => decide (d.ID = oid)) = true
    · simp only [UpdateByID, hany, if_true]
      rfl
    · simp only [UpdateByID, hany]
      rfl

/-- Claim C16. Running `TrackingVehicle(id, m, s)` twice in succession leaves every
persisted vehicle with the same fields, other than `updated_at`, as running it once; and
after `TrackingVehicle(id, m1, s1)` and then `TrackingVehicle(id, m2, s2)` both succeed,
the vehicle with that id holds mileage `m2` and status `s2`, whatever `m1` and `s1`
were. -/
theorem TrackingVehicle_repeated (c : Collection) (id : String) :
    (∀ (m : ℚ) (s : VehicleStatus) (now now' : ℕ),
      (MongoVehicleRepository.TrackingVehicle
          (MongoVehicleRepository.TrackingVehicle c id m s now).1 id m s now').1.map
          Vehicle.withoutUpdatedAt
        = (MongoVehicleRepository.TrackingVehicle c id m s now).1.map
            Vehicle.withoutUpdatedAt) ∧
    (∀ (m₁ m₂ : ℚ) (s₁ s₂ : VehicleStatus) (now now' : ℕ),
      (MongoVehicleRepository.TrackingVehicle c id m₁ s₁ now).2 = none →
      (MongoVehicleRepository.TrackingVehicle
          (MongoVehicleRepository.TrackingVehicle c id m₁ s₁ now).1 id m₂ s₂ now').2 = none →
      ∃ oid d, ObjectIDFromHex id = .ok oid ∧
        (MongoVehicleRepository.TrackingVehicle
            (MongoVehicleRepository.TrackingVehicle c id m₁ s₁ now).1 id m₂ s₂ now').1.find?
            (fun d => decide (d.ID = oid)) = some d ∧
        d.Mileage = m₂ ∧ d.VehicleStatus = s₂) := by
  constructor
  · intro m s now now'
    rw [TrackingVehicle_store (MongoVehicleRepository.TrackingVehicle c id m s now).1,
      TrackingVehicle_store c]
    cases ObjectIDFromHex id with
    | error e => rfl
    | ok oid =>
      by_cases hany : c.any (fun d => decide (d.ID = oid)) = true
      · simp only [hany, if_true, updateFirst_any]
        exact updateFirst_twice oid m s now now' c
      · simp [hany]
  · intro m₁ m₂ s₁ s₂ now now' _ h2
    obtain ⟨oid, hid, hany, hstore⟩ :=
      (TrackingVehicle_ok_iff _ _ id m₂ s₂ now').mp (Prod.ext rfl h2)
    obtain ⟨d, _, _, hfind⟩ := find?_updateFirst oid m₂ s₂ now' _ hany
    refine ⟨oid, applyTrackingUpdate d m₂ s₂ now', hid, ?_, rfl, rfl⟩
    rw [← hstore] at hfind
    exact hfind

/-- Witness of C16: two successive updates of the vehicle of `hinoStore`. -/
theorem TrackingVehicle_repeated_witness :
    (MongoVehicleRepository.TrackingVehicle hinoStore "010101010101010101010101" 10 "repair"
        5).2 = none ∧
    ∃ oid d, ObjectIDFromHex "010101010101010101010101" = .ok oid ∧
      (MongoVehicleRepository.TrackingVehicle
          (MongoVehicleRepository.TrackingVehicle hinoStore "010101010101010101010101" 10
            "repair" 5).1 "010101010101010101010101" 25 "sold" 6).1.find?
          (fun d => decide (d.ID = oid)) = some d ∧
      d.Mileage = 25 ∧ d.VehicleStatus = "sold" :=
  ⟨by decide,
    (TrackingVehicle_repeated hinoStore "010101010101010101010101").2 10 25 "repair" "sold" 5 6
      (by decide) (by decide)⟩

/-! ### Building twice -/

/-- Claim C19. `Build` is idempotent: when `Build` succeeds on a filter, `Build` on the
result succeeds and returns it unchanged, and `FindVehicles` on the built filter returns
what it returns on the original one. -/
theorem Build_idempotent (f : VehicleFilter) (h : f.Build.2 = none) :
    f.Build.1.Build = (f.Build.1, none) ∧
    ∀ (re : RegexEngine) (c : Collection),
      MongoVehicleRepository.FindVehicles re c (some f.Build.1)
        = MongoVehicleRepository.FindVehicles re c (some f) := by
  have hidem : f.Build.1.Build = (f.Build.1, none) := by
    obtain ⟨hp, hs, hsf, hso, hID, -, -, -, hst, -⟩ := Build_fields f
    obtain ⟨herr, hdec, -⟩ := Build_snd f
    have hp0 : f.Build.1.Page ≠ 0 := by rw [hp]; split_ifs <;> omega
    have hs0 : f.Build.1.PageSize ≠ 0 := by rw [hs]; split_ifs <;> omega
    have hs100 : ¬ f.Build.1.PageSize > 100 := by rw [hs]; split_ifs <;> omega
    have hsf0 : f.Build.1.SortField ≠ "" := by
      rw [hsf]; split_ifs with h0
      · decide
      · exact h0
    have hso0 : f.Build.1.SortOrder ≠ "" := by
      rw [hso]; split_ifs with h0
      · decide
      · exact h0
    have hstatus : (if f.Build.1.VehicleStatus ≠ "" then
        VehicleStatus.Valid f.Build.1.VehicleStatus else none) = none := by
      rw [hst]
      rw [h] at herr
      cases hc : (if f.VehicleStatus ≠ "" then VehicleStatus.Valid f.VehicleStatus else none)
        with
      | none => rfl
      | some e => rw [hc] at herr; cases herr
    rw [Build_eq f.Build.1, hstatus]
    simp only [hp0, hs0, hs100, hsf0, hso0, if_false]
    by_cases he : f.ID = ""
    · have he' : f.Build.1.ID = "" := hID.trans he
      rw [if_neg (not_not.mpr he')]
    · have he' : f.Build.1.ID ≠ "" := by rw [hID]; exact he
      have hd := hdec h he
      rw [← hID] at hd
      rw [if_pos he', hd]
  refine ⟨hidem, fun re c => ?_⟩
  rw [FindVehicles_eq re c f.Build.1, FindVehicles_eq re c f, hidem, h]

/-- Witness of C19 on the filter `soldFilter`. -/
theorem Build_idempotent_witness :
    soldFilter.Build.2 = none ∧ soldFilter.Build.1.Build = (soldFilter.Build.1, none) :=
  ⟨by decide, (Build_idempotent soldFilter (by decide)).1⟩

/-! ### Negative pages and page sizes -/

/-- Claim C18, evaluated where it fails. `Build` accepts a page size of -5 and leaves it,
and `FindVehicles` hands the store the limit -5; `Build` accepts the page -1 with page size
10, and `FindVehicles` hands the store the skip -20, which the store rejects. A page size of
-2 returns two documents of `twoStore`, and so would -1000 return up to 1000: the clamp to
100 is passed by. -/
theorem Build_keeps_negative_pagination :
    (pageFilter 1 (-5)).Build.2 = none ∧
    (findVehiclesOptions (pageFilter 1 (-5)).Build.1).limit = some (-5) ∧
    (pageFilter 1 (-1000)).Build.2 = none ∧
    (findVehiclesOptions (pageFilter 1 (-1000)).Build.1).limit = some (-1000) ∧
    (pageFilter (-1) 10).Build.2 = none ∧
    (findVehiclesOptions (pageFilter (-1) 10).Build.1).skip = some (-20) ∧
    MongoVehicleRepository.FindVehicles anyRegex twoStore (some (pageFilter 1 (-2)))
      = .ok twoStore ∧
    MongoVehicleRepository.FindVehicles anyRegex twoStore (some (pageFilter (-1) 10))
      = .error Err.negativeSkip := by
  decide

/-! ### The handlers -/

/-- The hex form of an object id is not the empty string. -/
theorem Hex_ne_empty (o : ObjectID) : o.Hex ≠ "" := by
  intro h
  have hlen := congrArg String.length h
  simp [ObjectID.Hex, String.length, hexEncode_length, o.size] at hlen

/-- When `CreateVehicle` succeeds: a valid status, an id that is new, a license number
that is new. -/
theorem CreateVehicle_succeeds (c : Collection) (v : Vehicle) (now : ℕ) (gen : ObjectID)
    (hvalid : VehicleStatus.Valid v.VehicleStatus = none)
    (hid : ∀ d ∈ c, d.ID ≠ (if v.ID.IsZero then gen else v.ID))
    (hlicense : ∀ d ∈ c, d.LicenseNumber ≠ v.LicenseNumber) :
    (MongoVehicleRepository.CreateVehicle c v now gen).2.2 = none := by
  have h1 : c.any (fun d => decide (d.ID = if v.ID.IsZero then gen else v.ID)) = false := by
    simpa [List.any_eq_false] using hid
  have h2 : c.any (fun d => decide (d.LicenseNumber = v.LicenseNumber)) = false := by
    simpa [List.any_eq_false] using hlicense
  simp [MongoVehicleRepository.CreateVehicle, Vehicle.Build, hvalid, InsertOne, h1, h2]

/-- The service's `CreateVehicle` in terms of the repository's. -/
theorem service_CreateVehicle_eq (c : Collection) (req : VehicleRequest) (now : ℕ)
    (gen : ObjectID) (hvalid : VehicleStatus.Valid req.VehicleStatus = none) :
    MongoVehicleService.CreateVehicle c req now gen =
      match MongoVehicleRepository.CreateVehicle c
          { NewVehicle with
            VehicleName := req.VehicleName, VehicleModel := req.VehicleModel,
            VehicleStatus := req.VehicleStatus, Mileage := req.Mileage,
            LicenseNumber := req.LicenseNumber } now gen with
      | (_, c, some err) => (c, .error err)
      | (vehicle, c, none) => (c, .ok vehicle) := by
  simp [MongoVehicleService.CreateVehicle, VehicleRequest.Validate, hvalid]

/-- Claim C13, amended. A `POST` to `/api/v1/vehicles` whose body has a non-empty name,
model and license number, a valid status and a positive mileage, with a license number
that is not in the store, is answered 200 with the created vehicle: it has the license
number of the request and an id that is not zero, whose hex form is not empty; the same
request again is answered 422. A body with the mileage 0 is answered 422 and leaves the
store as it was. The id the driver generates is taken to be a new one and not the zero
id. -/
theorem CreateVehicle_handler (re : RegexEngine) (parseFloat : FloatParser)
    (unmarshal : String → Option VehicleRequest) (c : Collection) (r : Request)
    (body : String) (req : VehicleRequest) (hpost : r.Method = "POST")
    (hbody : r.Body = some body) (hdec : unmarshal body = some req) :
    (req.VehicleName ≠ "" → req.VehicleModel ≠ "" → req.LicenseNumber ≠ "" →
      VehicleStatus.Valid req.VehicleStatus = none → 0 < req.Mileage →
      (∀ d ∈ c, d.LicenseNumber ≠ req.LicenseNumber) →
      ∀ (now now' : ℕ) (gen gen' : ObjectID), gen ≠ NilObjectID → (∀ d ∈ c, d.ID ≠ gen) →
      ∃ v,
        (V1TrackingHandler.HandleCreateAndFindVehicle re parseFloat unmarshal c r now gen).2
          = [Write.success (.vehicle v) "successfully created vehicle"] ∧
        statusCode
          (V1TrackingHandler.HandleCreateAndFindVehicle re parseFloat unmarshal c r now gen).2
          = 200 ∧
        v.LicenseNumber = req.LicenseNumber ∧ v.ID.IsZero = false ∧ v.ID.Hex ≠ "" ∧
        statusCode
          (V1TrackingHandler.HandleCreateAndFindVehicle re parseFloat unmarshal
            (V1TrackingHandler.HandleCreateAndFindVehicle re parseFloat unmarshal c r now
              gen).1 r now' gen').2 = 422) ∧
    (req.Mileage = 0 →
      ∀ (now : ℕ) (gen : ObjectID),
        V1TrackingHandler.HandleCreateAndFindVehicle re parseFloat unmarshal c r now gen
          = (c, [Write.error 422 Err.validation])) := by
  have hhandler : ∀ (c : Collection) (now : ℕ) (gen : ObjectID),
      V1TrackingHandler.HandleCreateAndFindVehicle re parseFloat unmarshal c r now gen =
        match req.validateStruct with
        | some err => (c, [Write.error 422 err])
        | none =>
          match MongoVehicleService.CreateVehicle c req now gen with
          | (c, .error err) => (c, [Write.error 422 err])
          | (c, .ok vehicle) =>
            (c, [Write.success (.vehicle vehicle) "successfully created vehicle"]) := by
    intro c now gen
    simp [V1TrackingHandler.HandleCreateAndFindVehicle, V1TrackingHandler.CreateVehicle, hpost,
      hbody, hdec]
  constructor
  · intro hname hmodel hlicense hvalid hpositive hnew now now' gen gen' hgen hgennew
    have hmileage : req.Mileage ≠ 0 := ne_of_gt hpositive
    have hstatus : req.VehicleStatus ≠ "" := by
      intro h
      rw [h] at hvalid
      exact absurd hvalid (by decide)
    have hstruct : req.validateStruct = none := by
      simp [VehicleRequest.validateStruct, hname, hmodel, hstatus, hmileage, hlicense]
    have hok := CreateVehicle_succeeds c
      { NewVehicle with
        VehicleName := req.VehicleName, VehicleModel := req.VehicleModel,
        VehicleStatus := req.VehicleStatus, Mileage := req.Mileage,
        LicenseNumber := req.LicenseNumber } now gen hvalid
      (by simpa [NewVehicle, ObjectID.IsZero] using hgennew) hnew
    obtain ⟨-, -, -, hv, hstore⟩ := CreateVehicle_ok c _ now gen hok
    have hrepo : MongoVehicleRepository.CreateVehicle c
        { NewVehicle with
          VehicleName := req.VehicleName, VehicleModel := req.VehicleModel,
          VehicleStatus := req.VehicleStatus, Mileage := req.Mileage,
          LicenseNumber := req.LicenseNumber } now gen
        = (_, _, none) := Prod.ext rfl (Prod.ext rfl hok)
    have hfirst : V1TrackingHandler.HandleCreateAndFindVehicle re parseFloat unmarshal c r now
        gen = ((MongoVehicleRepository.CreateVehicle c
          { NewVehicle with
            VehicleName := req.VehicleName, VehicleModel := req.VehicleModel,
            VehicleStatus := req.VehicleStatus, Mileage := req.Mileage,
            LicenseNumber := req.LicenseNumber } now gen).2.1,
          [Write.success (.vehicle (MongoVehicleRepository.CreateVehicle c
            { NewVehicle with
              VehicleName := req.VehicleName, VehicleModel := req.VehicleModel,
              VehicleStatus := req.VehicleStatus, Mileage := req.Mileage,
              LicenseNumber := req.LicenseNumber } now gen).1)
            "successfully created vehicle"]) := by
      rw [hhandler, hstruct, service_CreateVehicle_eq c req now gen hvalid, hrepo]
    refine ⟨_, congrArg Prod.snd hfirst, ?_, ?_, ?_, Hex_ne_empty _, ?_⟩
    · rw [hfirst]
      rfl
    · rw [hv]
    · rw [hv]
      simpa [NewVehicle, ObjectID.IsZero] using hgen
    · rw [hfirst, hhandler, hstruct, service_CreateVehicle_eq _ req now' gen' hvalid]
      have hdup := CreateVehicle_dup
        (MongoVehicleRepository.CreateVehicle c
          { NewVehicle with
            VehicleName := req.VehicleName, VehicleModel := req.VehicleModel,
            VehicleStatus := req.VehicleStatus, Mileage := req.Mileage,
            LicenseNumber := req.LicenseNumber } now gen).2.1
        { NewVehicle with
          VehicleName := req.VehicleName, VehicleModel := req.VehicleModel,
          VehicleStatus := req.VehicleStatus, Mileage := req.Mileage,
          LicenseNumber := req.LicenseNumber } now' gen' (by rw [hstore]; simp)
      rcases hsecond : MongoVehicleRepository.CreateVehicle
        (MongoVehicleRepository.CreateVehicle c
          { NewVehicle with
            VehicleName := req.VehicleName, VehicleModel := req.VehicleModel,
            VehicleStatus := req.VehicleStatus, Mileage := req.Mileage,
            LicenseNumber := req.LicenseNumber } now gen).2.1
        { NewVehicle with
          VehicleName := req.VehicleName, VehicleModel := req.VehicleModel,
          VehicleStatus := req.VehicleStatus, Mileage := req.Mileage,
          LicenseNumber := req.LicenseNumber } now' gen' with ⟨v', c', _ | e⟩
      · rw [hsecond] at hdup
        exact absurd rfl hdup
      · rfl
  · intro hzero now gen
    have hstruct : req.validateStruct = some Err.validation := by
      simp [VehicleRequest.validateStruct, hzero]
    rw [hhandler, hstruct]

/-- Witness of C13 as amended: the request of the first scenario with a mileage of 15, in
the empty store. -/
theorem CreateVehicle_handler_witness :
    ∃ v,
      (V1TrackingHandler.HandleCreateAndFindVehicle anyRegex (fun _ => .error Err.numError)
          (fun _ => some usedHinoRequest) [] postVehicle 1 sampleID).2
        = [Write.success (.vehicle v) "successfully created vehicle"] ∧
      statusCode
        (V1TrackingHandler.HandleCreateAndFindVehicle anyRegex (fun _ => .error Err.numError)
          (fun _ => some usedHinoRequest) [] postVehicle 1 sampleID).2 = 200 ∧
      v.LicenseNumber = usedHinoRequest.LicenseNumber ∧ v.ID.IsZero = false ∧ v.ID.Hex ≠ "" ∧
      statusCode
        (V1TrackingHandler.HandleCreateAndFindVehicle anyRegex (fun _ => .error Err.numError)
          (fun _ => some usedHinoRequest)
          (V1TrackingHandler.HandleCreateAndFindVehicle anyRegex (fun _ => .error Err.numError)
            (fun _ => some usedHinoRequest) [] postVehicle 1 sampleID).1 postVehicle 2
          sampleID2).2 = 422 :=
  (CreateVehicle_handler anyRegex (fun _ => .error Err.numError) (fun _ => some usedHinoRequest)
    [] postVehicle "body" usedHinoRequest rfl rfl rfl).1 (by decide) (by decide) (by decide)
    (by decide) (by decide) (by decide) 1 2 sampleID sampleID2 (by decide) (by decide)

/-- Counterexample to C13 as stated: the body of the spec's first scenario, with the
mileage 0, in the empty store. Every field is as the claim asks, and the answer is 422. -/
theorem CreateVehicle_handler_mileage_zero :
    hinoRequest.VehicleName ≠ "" ∧ hinoRequest.VehicleModel ≠ "" ∧
    hinoRequest.LicenseNumber ≠ "" ∧ VehicleStatus.Valid hinoRequest.VehicleStatus = none ∧
    0 ≤ hinoRequest.Mileage ∧
    V1TrackingHandler.HandleCreateAndFindVehicle anyRegex (fun _ => .error Err.numError)
        (fun _ => some hinoRequest) [] postVehicle 1 sampleID
      = ([], [Write.error 422 Err.validation]) ∧
    statusCode
      (V1TrackingHandler.HandleCreateAndFindVehicle anyRegex (fun _ => .error Err.numError)
        (fun _ => some hinoRequest) [] postVehicle 1 sampleID).2 = 422 := by
  decide

/-- Claim C14, evaluated where it fails. A `POST` to `/api/v1/tracking` with no body in the
request context gets the 400 envelope first, and the handler goes on: whatever the
validator, the codec and the broker do, it makes a second write, and it calls the
service's `PublishTrackingData` with the zero request exactly when the validator accepts
the zero request. -/
theorem PublishTrackingData_no_body (unmarshal : String → Option TrackingDataRequest)
    (validateStruct validate : TrackingDataRequest → Option Err)
    (marshal : TrackingDataRequest → Except Err String) (publish : String → Option Err) :
    (∃ w, (V1TrackingHandler.PublishTrackingData unmarshal validateStruct validate marshal
        publish postTrackingNoBody).1 = [Write.error 400 Err.invalidRequest, w]) ∧
    (V1TrackingHandler.PublishTrackingData unmarshal validateStruct validate marshal publish
        postTrackingNoBody).2.1
      = (if validateStruct ⟨"", 0, ""⟩ = none then [⟨"", 0, ""⟩] else []) := by
  unfold V1TrackingHandler.PublishTrackingData postTrackingNoBody
  cases hv : validateStruct ⟨"", 0, ""⟩ with
  | some e => simp [hv]
  | none =>
    rcases hs : MongoVehicleService.PublishTrackingData validate marshal publish ⟨"", 0, ""⟩
      with ⟨_ | e, published⟩ <;> simp [hv, hs]

/-- Claim C17. For a `GET` handled by `FindVehicleByID`, the path is split on `/`. With
fewer than five segments the answer is 404 and the service is not called. Otherwise the
service's `GetVehicleByID` is called once, with the fifth segment, and every error it
returns is answered 404; an id that is not 24 hex digits, the empty id among them, and an
id of no document are such errors. -/
theorem FindVehicleByID_handler (c : Collection) (r : Request) (hget : r.Method = "GET") :
    ((Split r.Path '/').length < 5 →
      V1TrackingHandler.FindVehicleByID c r = ([Write.notFound], []) ∧
      statusCode (V1TrackingHandler.FindVehicleByID c r).1 = 404) ∧
    (5 ≤ (Split r.Path '/').length →
      (V1TrackingHandler.FindVehicleByID c r).2 = [(Split r.Path '/').getD 4 ""] ∧
      ∀ err, MongoVehicleService.GetVehicleByID c ((Split r.Path '/').getD 4 "") = .error err →
        (V1TrackingHandler.FindVehicleByID c r).1 = [Write.error 404 err] ∧
        statusCode (V1TrackingHandler.FindVehicleByID c r).1 = 404) ∧
    (∀ id, (∀ o, ObjectIDFromHex id ≠ .ok o) →
      MongoVehicleService.GetVehicleByID c id = .error Err.invalidHex) ∧
    MongoVehicleService.GetVehicleByID c "" = .error Err.invalidHex ∧
    (∀ id o, ObjectIDFromHex id = .ok o → (∀ d ∈ c, d.ID ≠ o) →
      MongoVehicleService.GetVehicleByID c id = .error Err.noDocuments) := by
  have hinvalid : ∀ id, (∀ o, ObjectIDFromHex id ≠ .ok o) →
      MongoVehicleService.GetVehicleByID c id = .error Err.invalidHex := by
    intro id hid
    have herr : ObjectIDFromHex id = .error Err.invalidHex := by
      unfold ObjectIDFromHex at hid ⊢
      split_ifs with h1
      · rfl
      · rw [if_neg h1] at hid
        cases hd : hexDecode id.data with
        | none => rfl
        | some bs =>
          simp only [hd] at hid ⊢
          split_ifs with h2
          · rw [dif_pos h2] at hid
            exact absurd rfl (hid _)
          · rfl
    simp [MongoVehicleService.GetVehicleByID, MongoVehicleRepository.FindVehicleByID, herr]
  have hempty : ∀ o, ObjectIDFromHex "" ≠ .ok o := by
    intro o h
    have hd : ObjectIDFromHex "" = .error Err.invalidHex := by decide
    rw [hd] at h
    cases h
  refine ⟨?_, ?_, hinvalid, hinvalid "" hempty, ?_⟩
  · intro hlen
    have h : V1TrackingHandler.FindVehicleByID c r = ([Write.notFound], []) := by
      simp [V1TrackingHandler.FindVehicleByID, hget, hlen]
    rw [h]
    exact ⟨rfl, rfl⟩
  · intro hlen
    have hlen' : ¬ (Split r.Path '/').length < 5 := by omega
    constructor
    · unfold V1TrackingHandler.FindVehicleByID
      simp only [hget, ne_eq, not_true_eq_false, if_false, hlen']
      cases MongoVehicleService.GetVehicleByID c ((Split r.Path '/').getD 4 "") <;> rfl
    · intro err herr
      have h : V1TrackingHandler.FindVehicleByID c r
          = ([Write.error 404 err], [(Split r.Path '/').getD 4 ""]) := by
        unfold V1TrackingHandler.FindVehicleByID
        simp only [hget, ne_eq, not_true_eq_false, if_false, hlen', herr]
      rw [h]
      exact ⟨rfl, rfl⟩
  · intro id o hid hnone
    have hfind : c.find? (fun d => decide (d.ID = o)) = none := by
      simpa [List.find?_eq_none] using hnone
    simp [MongoVehicleService.GetVehicleByID, MongoVehicleRepository.FindVehicleByID, hid,
      FindOne, hfind]

/-- Witness of C17: a path of four segments, the path with an empty id, a malformed id,
the all-zero id, and a path with a sixth segment. -/
theorem FindVehicleByID_handler_witness :
    V1TrackingHandler.FindVehicleByID hinoStore (getPath "/api/v1/vehicles")
      = ([Write.notFound], []) ∧
    V1TrackingHandler.FindVehicleByID hinoStore (getPath "/api/v1/vehicles/")
      = ([Write.error 404 Err.invalidHex], [""]) ∧
    V1TrackingHandler.FindVehicleByID hinoStore (getPath "/api/v1/vehicles/xyz")
      = ([Write.error 404 Err.invalidHex], ["xyz"]) ∧
    V1TrackingHandler.FindVehicleByID hinoStore
        (getPath "/api/v1/vehicles/000000000000000000000000")
      = ([Write.error 404 Err.noDocuments], ["000000000000000000000000"]) ∧
    (V1TrackingHandler.FindVehicleByID hinoStore
        (getPath "/api/v1/vehicles/010101010101010101010101/more")).2
      = ["010101010101010101010101"] :=
  ⟨((FindVehicleByID_handler hinoStore (getPath "/api/v1/vehicles") rfl).1 (by decide)).1,
    by decide, by decide, by decide,
    ((FindVehicleByID_handler hinoStore
      (getPath "/api/v1/vehicles/010101010101010101010101/more") rfl).2.1 (by decide)).1⟩

/-! ### Name patterns -/

theorem parseItems_literal (cs : List Char) (h : ∀ ch ∈ cs, ch ∉ regexMeta) :
    parseItems cs = some (cs.map RegexItem.literal) := by
  induction cs with
  | nil => rfl
  | cons ch rest ih =>
    have hch : ch ∉ regexMeta := h ch (List.mem_cons_self _ _)
    have hdot : ch ≠ '.' := by
      intro hd
      apply hch
      rw [hd]
      decide
    simp [parseItems, hdot, hch, ih (fun x hx => h x (List.mem_cons_of_mem _ hx))]

theorem matchItems_literal (cs s : List Char) :
    matchItems true (cs.map RegexItem.literal) s
      = (cs.map Char.toLower).isPrefixOf (s.map Char.toLower) := by
  induction cs generalizing s with
  | nil => simp [matchItems, List.isPrefixOf]
  | cons ch rest ih =>
    cases s with
    | nil => simp [matchItems, List.isPrefixOf]
    | cons x xs =>
      simp only [List.map_cons, matchItems, if_true, ih, List.isPrefixOf]
      by_cases hx : ch.toLower = x.toLower <;> simp [hx]

/-- On a filter value without special characters, the pattern `FindVehicles` builds
matches exactly the strings that start with the value, compared without regard to
case. -/
theorem pcreFragment_literal (p : String) (h : ∀ ch ∈ p.data, ch ∉ regexMeta) :
    ∃ m, pcreFragment ("^" ++ p) "i" = some m ∧ ∀ s, m s = startsWithFold p s := by
  have hdata : ("^" ++ p).data = '^' :: p.data := by
    simp [String.data_append]
  refine ⟨fun s => matchItems true (p.data.map RegexItem.literal) s.data, ?_, ?_⟩
  · unfold pcreFragment
    rw [hdata]
    simp only [parseItems_literal p.data h, Option.map_some']
    rfl
  · intro s
    simp only [startsWithFold, matchItems_literal]

/-- Claim C11, evaluated where it fails. The filter value is put into the pattern as it
is. With the vehicle name `.` the query returns the vehicle named `Hino`, whose name does
not start with a dot; with the vehicle name `(` the store rejects the pattern and the
query fails, although a vehicle whose name starts with `(` is in the store. With the
values `hi` and `hix`, which have no special character, the match is the one by
beginning. -/
theorem FindVehicles_name_is_pattern :
    hinoStore.map Vehicle.VehicleName = ["Hino"] ∧
    MongoVehicleRepository.FindVehicles pcreFragment hinoStore (some (nameFilter "."))
      = .ok hinoStore ∧
    startsWithFold "." "Hino" = false ∧
    vanStore.map Vehicle.VehicleName = ["(old) van"] ∧
    startsWithFold "(" "(old) van" = true ∧
    MongoVehicleRepository.FindVehicles pcreFragment vanStore (some (nameFilter "("))
      = .error Err.invalidRegex ∧
    MongoVehicleRepository.FindVehicles pcreFragment hinoStore (some (nameFilter "hi"))
      = .ok hinoStore ∧
    MongoVehicleRepository.FindVehicles pcreFragment hinoStore (some (nameFilter "hix"))
      = .ok [] := by
  decide

/-! ### Query keys -/

/-- Claim C12, evaluated where it fails. The key `PAGE` is none of the ten keys. The empty
query gives the zero filter and the call succeeds; with `PAGE=2` added, the value stays a
string, the codec matches the key to the field `page` and fails to decode a string into
an `int`, and the call returns an error. With `VEHICLE_STATUS=sold` added the typed filter
gets the status `sold`, and the call returns no vehicle where it returned one. -/
theorem queryFilter_case_variant_key :
    "PAGE" ∉ ["page", "limit", "sort_by", "sort_order", "_id", "vehicle_name", "vehicle_model",
      "license_number", "vehicle_status", "mileage"] ∧
    "VEHICLE_STATUS" ∉ ["page", "limit", "sort_by", "sort_order", "_id", "vehicle_name",
      "vehicle_model", "license_number", "vehicle_status", "mileage"] ∧
    (∀ parseFloat : FloatParser,
      MongoVehicleService.queryFilter parseFloat [] = .ok zeroFilter ∧
      MongoVehicleService.queryFilter parseFloat [("PAGE", "2")] = .error Err.unmarshalType ∧
      MongoVehicleService.queryFilter parseFloat [("VEHICLE_STATUS", "sold")]
        = .ok { zeroFilter with VehicleStatus := "sold" } ∧
      MongoVehicleService.FindVehicles anyRegex parseFloat hinoStore [] = .ok hinoStore ∧
      MongoVehicleService.FindVehicles anyRegex parseFloat hinoStore [("PAGE", "2")]
        = .error Err.unmarshalType ∧
      MongoVehicleService.FindVehicles anyRegex parseFloat hinoStore
        [("VEHICLE_STATUS", "sold")] = .ok []) :=
  ⟨by decide, by decide, fun _ => ⟨rfl, rfl, rfl, rfl, rfl, rfl⟩⟩

/-- The answer of the handler `FindVehicles` in terms of the result of the service: 400
for an error, 404 for an empty list, 200 with the list otherwise. -/
theorem FindVehicles_handler_status (re : RegexEngine) (parseFloat : FloatParser)
    (c : Collection) (r : Request) :
    (∀ err, MongoVehicleService.FindVehicles re parseFloat c r.Query = .error err →
      V1TrackingHandler.FindVehicles re parseFloat c r = [Write.error 400 err]) ∧
    (MongoVehicleService.FindVehicles re parseFloat c r.Query = .ok [] →
      V1TrackingHandler.FindVehicles re parseFloat c r = [Write.error 404 Err.notFound]) ∧
    (∀ v vs, MongoVehicleService.FindVehicles re parseFloat c r.Query = .ok (v :: vs) →
      V1TrackingHandler.FindVehicles re parseFloat c r
        = [Write.success (.vehicles (v :: vs)) "successfully fetched vehicles"]) := by
  unfold V1TrackingHandler.FindVehicles
  refine ⟨?_, ?_, ?_⟩
  · intro err h
    rw [h]
  · intro h
    rw [h]
    rfl
  · intro v vs h
    rw [h]
    rfl

/-- A `page` or `limit` that `strconv.Atoi` rejects, and a `mileage` that the float parser
rejects, make the service return an error before a filter is decoded. -/
theorem queryFilter_error_of_bad_number (parseFloat : FloatParser) (query : Values)
    (h : ∃ e ∈ query,
      ((e.1 = "page" ∨ e.1 = "limit") ∧ ∃ err, Atoi e.2 = .error err) ∨
      (e.1 = "mileage" ∧ ∃ err, parseFloat e.2 = .error err)) :
    ∃ err, MongoVehicleService.queryFilter parseFloat query = .error err := by
  have hdata : ∀ data, ∃ err, queryData parseFloat query data = .error err := by
    induction query with
    | nil =>
      obtain ⟨e, he, -⟩ := h
      cases he
    | cons entry rest ih =>
      intro data
      obtain ⟨key, value0⟩ := entry
      obtain ⟨e, he, hbad⟩ := h
      by_cases hint : key = "page" ∨ key = "limit"
      · simp only [queryData, hint, if_true]
        cases hatoi : Atoi value0 with
        | error err => exact ⟨err, rfl⟩
        | ok n =>
          rcases List.mem_cons.mp he with rfl | hrest
          · rcases hbad with ⟨-, err, herr⟩ | ⟨hm, -⟩
            · rw [hatoi] at herr
              cases herr
            · have hm' : key = "mileage" := hm
              rcases hint with hp | hl
              · rw [hp] at hm'
                exact absurd hm' (by decide)
              · rw [hl] at hm'
                exact absurd hm' (by decide)
          · exact ih ⟨e, hrest, hbad⟩ _
      · by_cases hmil : key = "mileage"
        · simp only [queryData, hint, if_false, hmil, if_true]
          cases hpf : parseFloat value0 with
          | error err => exact ⟨err, rfl⟩
          | ok x =>
            rcases List.mem_cons.mp he with rfl | hrest
            · rcases hbad with ⟨hk, -⟩ | ⟨-, err, herr⟩
              · exact absurd hk hint
              · rw [hpf] at herr
                cases herr
            · exact ih ⟨e, hrest, hbad⟩ _
        · simp only [queryData, hint, if_false, hmil]
          rcases List.mem_cons.mp he with rfl | hrest
          · rcases hbad with ⟨hk, -⟩ | ⟨hk, -⟩
            · exact absurd hk hint
            · exact absurd hk hmil
          · exact ih ⟨e, hrest, hbad⟩ _
  obtain ⟨err, herr⟩ := hdata []
  exact ⟨err, by simp [MongoVehicleService.queryFilter, herr]⟩

/-- Claim C15, evaluated where it fails. The query `PAGE=2` has none of the keys `page`,
`limit`, `mileage`, `vehicle_status` and `_id`, so none of its parameters is invalid in
the claim's sense, and the store holds a vehicle; the answer is 400, while the same
request without the key is answered 200 with the list. -/
theorem FindVehicles_handler_case_variant_key :
    (∀ e ∈ [("PAGE", "2")], e.1 ∉ ["page", "limit", "mileage", "vehicle_status", "_id"]) ∧
    (∀ (parseFloat : FloatParser) (unmarshal : String → Option VehicleRequest) (now : ℕ)
        (gen : ObjectID),
      V1TrackingHandler.HandleCreateAndFindVehicle anyRegex parseFloat unmarshal hinoStore
          ⟨"GET", "/api/v1/vehicles", [("PAGE", "2")], none⟩ now gen
        = (hinoStore, [Write.error 400 Err.unmarshalType]) ∧
      statusCode
        (V1TrackingHandler.HandleCreateAndFindVehicle anyRegex parseFloat unmarshal hinoStore
          ⟨"GET", "/api/v1/vehicles", [("PAGE", "2")], none⟩ now gen).2 = 400 ∧
      V1TrackingHandler.HandleCreateAndFindVehicle anyRegex parseFloat unmarshal hinoStore
          ⟨"GET", "/api/v1/vehicles", [], none⟩ now gen
        = (hinoStore,
            [Write.success (.vehicles hinoStore) "successfully fetched vehicles"])) :=
  ⟨by decide, fun _ _ _ _ => ⟨rfl, rfl, rfl⟩⟩

end VehicleSvc
